import Mathlib

/-!
# stackprint: anchor search and stack-trace trimming

Shallow embedding of `stackprint/stackprint.go`.

A Go `string` / `[]byte` is modelled as a list of characters, one `Char`
standing for one byte.  The functions below only compare bytes with each other
and with ASCII constants, so nothing depends on which alphabet is used.

`io.Reader`s are modelled by the bytes they deliver; an `io.Writer` by the
bytes appended to it.  `io.TeeReader` is modelled by `teeRead`, the bytes a
`bufio.Scanner` has pulled from its reader when its scan loop ends.

Go `int` is 64 bit.  Line counters cannot overflow (the input is shorter than
`2^63` bytes); the one expression fed by a caller-chosen value,
`2*si.Level+anchorLine`, is wrapped explicitly with `int64`.
-/

namespace stackprint

/-- Go byte string. -/
abbrev GoString := List Char

/-! ## Library semantics: `bufio.Scanner` with `bufio.ScanLines`, `strings.Contains` -/

/-- Value of `bufio.MaxScanTokenSize`: a scanner's buffer never grows beyond it. -/
def maxScanTokenSize : Nat := 64 * 1024

/-- Helper of `bufio.ScanLines`: drops one terminal carriage return. -/
def dropCR (data : GoString) : GoString :=
  if data.getLast? = some '\r' then data.dropLast else data

/-- Cuts the data at every newline byte: the newline-terminated segments (terminator removed)
and the unterminated remainder after the last newline. -/
def splitNL : GoString → List GoString × GoString
  | [] => ([], [])
  | c :: cs =>
    match splitNL cs with
    | (ls, rem) =>
      if c = '\n' then ([] :: ls, rem)
      else
        match ls with
        | [] => ([], c :: rem)
        | l :: ls1 => ((c :: l) :: ls1, rem)

/-- Tokens produced by the loop `for scanner.Scan() { scanner.Text() }` over the segments of the
data.  A segment of `maxScanTokenSize` bytes or more does not fit the buffer: `Scan` fails with
`ErrTooLong` and the loop ends.  At end of input a non-empty remainder is a final token. -/
def scanSegs : List GoString → GoString → List GoString
  | [], rem => if rem = [] ∨ ¬ rem.length < maxScanTokenSize then [] else [dropCR rem]
  | l :: ls, rem => if l.length < maxScanTokenSize then dropCR l :: scanSegs ls rem else []

/-- Bytes the scanner has read from its reader when the loop ends: everything, unless a
segment overfills the buffer, in which case reading stops with the buffer full. -/
def readSegs : List GoString → GoString → GoString
  | [], rem => rem.take maxScanTokenSize
  | l :: ls, rem =>
    if l.length < maxScanTokenSize then l ++ '\n' :: readSegs ls rem
    else l.take maxScanTokenSize

/-- The lines `scanner.Text()` yields for a `bufio.NewScanner(r)` run to the end over data `r`. -/
def scanLines (r : GoString) : List GoString :=
  scanSegs (splitNL r).1 (splitNL r).2

/-- Contents of the buffer of `io.TeeReader(r, &buf)` after a scanner was run to the end
over the tee. -/
def teeRead (r : GoString) : GoString :=
  readSegs (splitNL r).1 (splitNL r).2

/-- Go `strings.Contains(s, substr)`. -/
def Contains : GoString → GoString → Bool
  | [], substr => substr.isEmpty
  | c :: cs, substr => substr.isPrefixOf (c :: cs) || Contains cs substr

/-- Go `int` arithmetic: the value of a 64-bit two's complement result. -/
def int64 (x : Int) : Int :=
  (x + 9223372036854775808) % 18446744073709551616 - 9223372036854775808

/-! ## Regular expressions

A compiled `*regexp.Regexp` is used through `MatchString` only. -/

/-- Compiled regular expression, given by its `MatchString` method. -/
structure Regexp where
  /-- Reports whether the string contains any match of the expression -/
  MatchString : GoString → Bool

/-- Syntax of the regular expressions occurring in the package. -/
inductive Pattern where
  /-- literal text -/
  | lit (s : GoString)
  /-- alternation `a|b` -/
  | alt (a b : Pattern)
  /-- concatenation `ab` -/
  | seq (a b : Pattern)
  /-- repetition `[...]*` of a character class -/
  | starClass (cls : Char → Bool)

/-- Repetition `[...]*` followed by continuation `k`: some number of class bytes, then `k`. -/
def starThen (cls : Char → Bool) (k : GoString → Bool) : GoString → Bool
  | [] => k []
  | c :: cs => k (c :: cs) || (cls c && starThen cls k cs)

/-- Does some match of the pattern start at the head of `s`, with `k` accepting the rest? -/
def Pattern.matchHere : Pattern → GoString → (GoString → Bool) → Bool
  | .lit t, s, k => t.isPrefixOf s && k (s.drop t.length)
  | .alt a b, s, k => a.matchHere s k || b.matchHere s k
  | .seq a b, s, k => a.matchHere s (fun s1 => b.matchHere s1 k)
  | .starClass cls, s, k => starThen cls k s

/-- Unanchored search: does a match start at some position of `s`? -/
def Pattern.search (p : Pattern) : GoString → Bool
  | [] => p.matchHere [] (fun _ => true)
  | c :: cs => p.matchHere (c :: cs) (fun _ => true) || p.search cs

/-- Go `regexp.MustCompile` for patterns of the syntax above. -/
def MustCompile (p : Pattern) : Regexp := ⟨p.search⟩

/-- The character class `[a-zA-Z0-9_/.\[\]]`. -/
def packageClass (c : Char) : Bool :=
  ('a' ≤ c && c ≤ 'z') || ('A' ≤ c && c ≤ 'Z') || ('0' ≤ c && c ≤ '9') ||
    c == '_' || c == '/' || c == '.' || c == '[' || c == ']'

/-- The pattern `(lainio|gregwebs)/(err(2|3)|try)[a-zA-Z0-9_/.\[\]]*\(`. -/
def packagePattern : Pattern :=
  .seq (.alt (.lit "lainio".toList) (.lit "gregwebs".toList))
    (.seq (.lit "/".toList)
      (.seq (.alt (.seq (.lit "err".toList) (.alt (.lit "2".toList) (.lit "3".toList)))
              (.lit "try".toList))
        (.seq (.starClass packageClass) (.lit "(".toList))))

/-- PackageRegexp finds the lines that include function calls in the package and its sub
packages. -/
def PackageRegexp : Regexp := MustCompile packagePattern

/-! ## The package -/

/-- Go `type stackInfo struct`; the embedded `*regexp.Regexp` may be nil. -/
structure stackInfo where
  PackageName : GoString
  FuncName : GoString
  Level : Int
  Regexp : Option Regexp

/-- Reserved value of `const nilAnchor = 0xffff`. -/
def nilAnchor : Int := 0xffff

/-- Go `func (si stackInfo) fullName() string`. -/
def stackInfo.fullName (si : stackInfo) : GoString :=
  let dot : GoString := if si.PackageName ≠ [] ∧ si.FuncName ≠ [] then ['.'] else []
  si.PackageName ++ dot ++ si.FuncName

/-- Go `func (si stackInfo) isFuncAnchor(s string) bool`. -/
def stackInfo.isFuncAnchor (si : stackInfo) (s : GoString) : Bool :=
  if si.PackageName = [] ∧ si.FuncName = [] then true
  else Contains s si.fullName

/-- Go `func (si stackInfo) isAnchor(s string) bool`. -/
def stackInfo.isAnchor (si : stackInfo) (s : GoString) : Bool :=
  match si.Regexp with
  | some re => re.MatchString s
  | none => si.isFuncAnchor s

/-- The scan loop of `calc`: state is the line counter `i` and `anchorLine`. -/
def calcLoop (anchor : GoString → Bool) : List GoString → Int × Int → Int × Int
  | [], st => st
  | line :: rest, (i, anchorLine) =>
    let canSetAnchorLine := decide (i > -1) && anchor line
    calcLoop anchor rest (i + 1, if canSetAnchorLine then i else anchorLine)

/-- Go `func calc(r io.Reader, si stackInfo, anchor func(s string) bool) int`
(`calc` is a keyword of Lean; the unused parameter `si` is dropped). -/
def calcWith (r : GoString) (anchor : GoString → Bool) : Int :=
  match calcLoop anchor (scanLines r) (-1, nilAnchor) with
  | (i, anchorLine) => if i - 1 = anchorLine then nilAnchor else anchorLine

/-- Go `func calcAnchor(r io.Reader, si stackInfo) int`. -/
def calcAnchor (r : GoString) (si : stackInfo) : Int :=
  let buf := teeRead r
  let anchor := calcWith r (fun s => si.isAnchor s)
  let needToCalcFnNameAnchor := si.FuncName ≠ [] ∧ si.Regexp.isSome = true
  if needToCalcFnNameAnchor then
    let fnNameAnchor := calcWith buf (fun s => si.isFuncAnchor s)
    let fnAnchorIsMoreOptimal := fnNameAnchor ≠ nilAnchor ∧ fnNameAnchor > anchor
    if fnAnchorIsMoreOptimal then fnNameAnchor else anchor
  else anchor

/-- The print loop of `stackPrint`: `i` is the line counter, `w` the bytes written so far. -/
def printLoop (si : stackInfo) (anchorLine : Int) : List GoString → Int → GoString → GoString
  | [], _, w => w
  | line :: rest, i, w =>
    let canPrint := decide (anchorLine = nilAnchor)
    let canPrint :=
      if !canPrint then decide (i = -1) || decide (i ≥ int64 (int64 (2 * si.Level) + anchorLine))
      else canPrint
    printLoop si anchorLine rest (i + 1) (if canPrint then w ++ line ++ ['\n'] else w)

/-- Go `func stackPrint(r io.Reader, w io.Writer, si stackInfo)`: the bytes written to `w`. -/
def stackPrint (r : GoString) (si : stackInfo) : GoString :=
  let buf := teeRead r
  let anchorLine := calcAnchor r si
  printLoop si anchorLine (scanLines buf) (-1) []

/-! ## Vocabulary of the specification -/

/-- Lines written one per `Fprintln`. -/
def joinLines (ls : List GoString) : GoString :=
  (ls.map (fun l => l ++ ['\n'])).flatten

/-- Index of the last element satisfying `p`, if any. -/
def lastMatch (p : GoString → Bool) : List GoString → Option Nat
  | [] => none
  | x :: xs =>
    match lastMatch p xs with
    | some k => some (k + 1)
    | none => if p x then some 0 else none

/-- Number of lines of a text, counted by its newline bytes. -/
def lineCount (s : GoString) : Nat := s.count '\n'

/-- The input ends with a newline byte. -/
def NewlineTerminated (r : GoString) : Prop := r.getLast? = some '\n'

instance (r : GoString) : Decidable (NewlineTerminated r) := by
  unfold NewlineTerminated; infer_instance

/-- The value `calc` returns when the frame lines (the tokens after the caption) are `fs`:
the index of the last matching frame, unless there is none or it is the final line. -/
def anchorOf (p : GoString → Bool) (fs : List GoString) : Int :=
  match lastMatch p fs with
  | some k => if (k : Int) + 1 = fs.length then nilAnchor else k
  | none => nilAnchor

/-- The first frame index `stackPrint` prints for a found anchor: the value of the Go
expression `2*si.Level+anchorLine`. -/
def threshold (si : stackInfo) (anchorLine : Int) : Int :=
  int64 (int64 (2 * si.Level) + anchorLine)

/-- The frame lines of a trace: the scanned lines after the caption. -/
def frameLines (r : GoString) : List GoString := (scanLines r).tail

/-- Every newline-terminated line is free of a terminal carriage return and fits the scanner's
buffer. -/
def PlainLines (r : GoString) : Prop :=
  ∀ l ∈ (splitNL r).1, l.getLast? ≠ some '\r' ∧ l.length < maxScanTokenSize

instance (r : GoString) : Decidable (PlainLines r) := by
  unfold PlainLines; infer_instance

/-- A short trace whose lines end in carriage return and newline. -/
def crTrace : GoString := String.toList (
  "goroutine 1 [running]:\r\n" ++
  "main.a()\r\n" ++
  "\tmain.go:1\r\n" ++
  "main.main()\r\n" ++
  "\tmain.go:9\r\n")

/-- A short trace with two frames. -/
def shortTrace : GoString := String.toList (
  "goroutine 1 [running]:\n" ++
  "main.a()\n" ++
  "\tmain.go:1\n" ++
  "main.main()\n" ++
  "\tmain.go:9\n")

/-- A trace whose caption and two of whose frames contain `panic(`. -/
def panicTrace : GoString := String.toList (
  "goroutine 7 [running]: panic(\n" ++
  "panic(1)\n" ++
  "\tpanic.go:1\n" ++
  "panic(2)\n" ++
  "\tpanic.go:2\n" ++
  "main.main()\n" ++
  "\tmain.go:9\n")

/-- The criterion of `stackProloguePanic` and of the first case of `TestCalcAnchor`. -/
def siPanic : stackInfo := ⟨[], "panic(".toList, 1, some PackageRegexp⟩

/-- The reading of the level as context kept before the anchor: the output keeps the `2*L` lines before the anchor line, the anchor line
and everything after it. -/
def KeepsContext (r : GoString) (si : stackInfo) : Prop :=
  ∀ c, scanLines r = c :: frameLines r →
    stackPrint r si =
      joinLines (c :: (frameLines r).drop (calcAnchor r si - 2 * si.Level).toNat)

/-- The value `calcAnchor` returns when the frame lines are `fs`: the function-name anchor if
both passes run and it is found and greater than the regexp anchor, else the anchor of the
`isAnchor` pass. -/
def anchorOfFrames (si : stackInfo) (fs : List GoString) : Int :=
  if si.FuncName ≠ [] ∧ si.Regexp.isSome = true then
    if anchorOf si.isFuncAnchor fs ≠ nilAnchor ∧
        anchorOf si.isFuncAnchor fs > anchorOf si.isAnchor fs
    then anchorOf si.isFuncAnchor fs
    else anchorOf si.isAnchor fs
  else anchorOf si.isAnchor fs

/-- The lines `stackPrint` writes when the scanned lines are `ls`: all of them without an
anchor, else the caption and the frame lines from the threshold on. -/
def trimmedLines (si : stackInfo) : List GoString → List GoString
  | [] => []
  | c :: fs =>
    if anchorOfFrames si fs = nilAnchor then c :: fs
    else c :: fs.drop (threshold si (anchorOfFrames si fs)).toNat

/-- The lines of the input itself: its newline-terminated lines and, when the input does not
end in a newline, the unterminated rest after the last newline. -/
def inputLines (r : GoString) : List GoString :=
  (splitNL r).1 ++ (if (splitNL r).2 = [] then [] else [(splitNL r).2])

/-- The frame lines of the input itself: its lines after the caption. -/
def inputFrames (r : GoString) : List GoString := (inputLines r).tail

/-- Every line of the input is free of a terminal carriage return and fits the scanner's
buffer. -/
def PlainInput (r : GoString) : Prop :=
  ∀ l ∈ inputLines r, l.getLast? ≠ some '\r' ∧ l.length < maxScanTokenSize

instance (r : GoString) : Decidable (PlainInput r) := by
  unfold PlainInput; infer_instance

/-- The trimmed trace read over the lines of the input itself: the caption, then the frame
lines of the input whose index is at least `2*si.Level + A` for the anchor `A` of
`calcAnchor`, each followed by a newline. -/
def trimOfInput (r : GoString) (si : stackInfo) : GoString :=
  joinLines ((inputLines r).take 1 ++
    (inputFrames r).drop (2 * si.Level + calcAnchor r si).toNat)

/-- A line of 65536 bytes: one byte more than a scanner's buffer holds. -/
def longLine : GoString := List.replicate 65536 'x'

/-- A trace whose second frame line is `longLine`: the caption, `main.a()`, the long line,
`main.main()` and its source line, each followed by a newline. -/
def longTraceA : GoString :=
  joinLines ["goroutine 1 [running]:".toList, "main.a()".toList, longLine,
    "main.main()".toList, "\tmain.go:9".toList]

/-- A trace with `longLine` between two calls of `main.a`: the caption, `main.a()` and its
source line, the long line and `main.a()` again, each followed by a newline. -/
def longTraceB : GoString :=
  joinLines ["goroutine 1 [running]:".toList, "main.a()".toList, "\tmain.go:1".toList,
    longLine, "main.a()".toList]

/-- A match predicate: the line ends in a closing parenthesis. -/
def endsInParen (s : GoString) : Bool := decide (s.getLast? = some ')')

/-! ## Test vectors of `stackprint_test.go` -/

def inputFromMac : GoString := String.toList (
  "goroutine 518 [running]:\n" ++
  "runtime/debug.Stack()\n" ++
  "\t/opt/homebrew/Cellar/go/1.18/libexec/src/runtime/debug/stack.go:24 +0x64\n" ++
  "github.com/lainio/err2/internal/debug.FprintStack(\x7b0x102ff7e88, 0x14000010020\x7d, \x7b\x7b0x0, 0x0\x7d, \x7b0x102c012b8, 0x6\x7d, 0x1, 0x140000bcb40\x7d)\n" ++
  "\t/Users/harrilainio/go/pkg/mod/github.com/lainio/err2@v0.8.5/internal/debug/debug.go:58 +0x40\n" ++
  "github.com/lainio/err2/internal/handler.printStack(\x7b0x102ff7e88, 0x14000010020\x7d, \x7b\x7b0x0, 0x0\x7d, \x7b0x102c012b8, 0x6\x7d, 0x1, 0x140000bcb40\x7d, \x7b0x102ed30c0, 0x1035910f0\x7d)\n" ++
  "\t/Users/harrilainio/go/pkg/mod/github.com/lainio/err2@v0.8.5/internal/handler/handler.go:69 +0xbc\n" ++
  "github.com/lainio/err2/internal/handler.Info.callPanicHandler(\x7b\x7b0x102ed30c0, 0x1035910f0\x7d, \x7b0x102ff7e88, 0x14000010020\x7d, 0x0, 0x140018643e0, 0x0\x7d)\n" ++
  "\t/Users/harrilainio/go/pkg/mod/github.com/lainio/err2@v0.8.5/internal/handler/handler.go:45 +0x94\n" ++
  "github.com/lainio/err2/internal/handler.Process(\x7b\x7b0x102ed30c0, 0x1035910f0\x7d, \x7b0x102ff7e88, 0x14000010020\x7d, 0x0, 0x140018643e0, 0x0\x7d)\n" ++
  "\t/Users/harrilainio/go/pkg/mod/github.com/lainio/err2@v0.8.5/internal/handler/handler.go:59 +0xa4\n" ++
  "github.com/lainio/err2.Return(0x14001c1ee20)\n" ++
  "\t/Users/harrilainio/go/pkg/mod/github.com/lainio/err2@v0.8.5/err2.go:171 +0xec\n" ++
  "panic(\x7b0x102ed30c0, 0x1035910f0\x7d)\n" ++
  "\t/opt/homebrew/Cellar/go/1.18/libexec/src/runtime/panic.go:844 +0x26c\n" ++
  "github.com/findy-network/findy-agent/agent/cloud.(*Agent).PwPipe(0x1400024e2d0, \x7b0x140017ad770, 0x24\x7d)\n" ++
  "\t/Users/harrilainio/go/src/github.com/findy-network/findy-agent/agent/cloud/agent.go:202 +0x324\n" ++
  "github.com/findy-network/findy-agent/agent/prot.StartPSM(\x7b\x7b0x102c36e41, 0x37\x7d, \x7b0x102c3c16e, 0x40\x7d, \x7b0x103006588, 0x140003325a0\x7d, \x7b0x103003ad0, 0x14001c168c0\x7d, 0x102fee8b0\x7d)\n" ++
  "\t/Users/harrilainio/go/src/github.com/findy-network/findy-agent/agent/prot/processor.go:75 +0x244\n" ++
  "github.com/findy-network/findy-agent/protocol/trustping.startTrustPing(\x7b0x103006588, 0x140003325a0\x7d, \x7b0x103003ad0, 0x14001c168c0\x7d)\n" ++
  "\t/Users/harrilainio/go/src/github.com/findy-network/findy-agent/protocol/trustping/trust_ping_protocol.go:58 +0xec\n" ++
  "created by github.com/findy-network/findy-agent/agent/prot.FindAndStartTask\n" ++
  "\t/Users/harrilainio/go/src/github.com/findy-network/findy-agent/agent/prot/processor.go:337 +0x21c\n")

def input1 : GoString := String.toList (
  "goroutine 1 [running]:\n" ++
  "runtime/debug.Stack()\n" ++
  "\t/usr/local/go/src/runtime/debug/stack.go:24 +0x68\n" ++
  "github.com/lainio/err2/internal/debug.FprintStack(\x7b0x1896a8, 0x40000a6010\x7d, \x7b\x7b0x15427b, 0x4\x7d, \x7b0x1548e7, 0x7\x7d, 0x0\x7d)\n" ++
  "\t/home/god/go/src/github.com/lainio/err2/internal/debug/debug.go:40 +0x3c\n" ++
  "github.com/lainio/err2.printStackIf(\x7b0x1548e7, 0x7\x7d, 0x0, \x7b0x12e3e0?, 0x188f50?\x7d)\n" ++
  "\t/home/god/go/src/github.com/lainio/err2/err2.go:315 +0xdc\n" ++
  "github.com/lainio/err2.checkStackTracePrinting(\x7b0x1548e7, 0x7\x7d, \x7b0x12e3e0?, 0x188f50\x7d)\n" ++
  "\t/home/god/go/src/github.com/lainio/err2/err2.go:334 +0xbc\n" ++
  "github.com/lainio/err2.Returnw(0x40000b3e60, \x7b0x0, 0x0\x7d, \x7b0x0, 0x0, 0x0\x7d)\n" ++
  "\t/home/god/go/src/github.com/lainio/err2/err2.go:201 +0x64\n" ++
  "panic(\x7b0x12e3e0, 0x188f50\x7d)\n" ++
  "\t/usr/local/go/src/runtime/panic.go:838 +0x20c\n" ++
  "main.test0()\n" ++
  "\t/home/god/go/src/github.com/lainio/ic/main.go:18 +0x64\n" ++
  "main.main()\n" ++
  "\t/home/god/go/src/github.com/lainio/ic/main.go:74 +0x1d0\n")

def output1 : GoString := String.toList (
  "goroutine 1 [running]:\n" ++
  "github.com/lainio/err2.Returnw(0x40000b3e60, \x7b0x0, 0x0\x7d, \x7b0x0, 0x0, 0x0\x7d)\n" ++
  "\t/home/god/go/src/github.com/lainio/err2/err2.go:201 +0x64\n" ++
  "panic(\x7b0x12e3e0, 0x188f50\x7d)\n" ++
  "\t/usr/local/go/src/runtime/panic.go:838 +0x20c\n" ++
  "main.test0()\n" ++
  "\t/home/god/go/src/github.com/lainio/ic/main.go:18 +0x64\n" ++
  "main.main()\n" ++
  "\t/home/god/go/src/github.com/lainio/ic/main.go:74 +0x1d0\n")

def output12 : GoString := String.toList (
  "goroutine 1 [running]:\n" ++
  "main.test0()\n" ++
  "\t/home/god/go/src/github.com/lainio/ic/main.go:18 +0x64\n" ++
  "main.main()\n" ++
  "\t/home/god/go/src/github.com/lainio/ic/main.go:74 +0x1d0\n")

/-! ## Printing a captured stack

`debug.Stack()` is an input of the model: the parameter `stack` is the trace it returns.  A
writer is the bytes written to it so far. -/

/-- Go `func newErrSI() stackInfo`. -/
def newErrSI : stackInfo := { PackageName := [], FuncName := [], Level := 1, Regexp := some PackageRegexp }

/-- Go `func newSI(pn, fn string, lvl int) stackInfo`. -/
def newSI (pn fn : GoString) (lvl : Int) : stackInfo :=
  { PackageName := pn, FuncName := fn, Level := lvl, Regexp := some PackageRegexp }

/-- Go `stackPrologueError = newErrSI()`. -/
def stackPrologueError : stackInfo := newErrSI

/-- Go `stackProloguePanic = newSI("", "panic(", 1)`. -/
def stackProloguePanic : stackInfo := newSI [] "panic(".toList 1

/-- Go `func FprintStack(w io.Writer, si stackInfo)`: the writer after the call. -/
def FprintStack (stack w : GoString) (si : stackInfo) : GoString :=
  w ++ stackPrint stack si

/-- Go `func printStack(w io.Writer, si stackInfo, msg any)`; `msg` is the value as `%v`
formats it. -/
def printStack (stack w : GoString) (si : stackInfo) (msg : GoString) : GoString :=
  FprintStack stack (w ++ "---\n".toList ++ msg ++ "\n---\n".toList) si

/-- Go `func PrintError(w io.Writer, err error)`. -/
def PrintError (stack w : GoString) (err : GoString) : GoString :=
  printStack stack w stackPrologueError err

/-- Go `func PrintPanic(w io.Writer, r any)`. -/
def PrintPanic (stack w : GoString) (r : GoString) : GoString :=
  printStack stack w stackProloguePanic r

/-- Go `func PrintStack(stackLevel int)`: the bytes written to standard error. -/
def PrintStack (stack : GoString) (stackLevel : Int) : GoString :=
  FprintStack stack [] { PackageName := [], FuncName := [], Level := stackLevel, Regexp := none }

/-- A short trace whose lines end in two carriage returns and a newline. -/
def crcrTrace : GoString := String.toList (
  "goroutine 1 [running]:\r\r\n" ++
  "main.main()\r\r\n" ++
  "\tmain.go:9\r\r\n")

/-- What the scanner makes of `crcrTrace`, written back: one carriage return per line is
gone. -/
def crcrTraceOnce : GoString := String.toList (
  "goroutine 1 [running]:\r\n" ++
  "main.main()\r\n" ++
  "\tmain.go:9\r\n")

/-- A trace with a `panic(` frame and no frame of the package. -/
def panicOnlyTrace : GoString := String.toList (
  "goroutine 1 [running]:\n" ++
  "panic(0x1)\n" ++
  "\t/usr/local/go/src/runtime/panic.go:838 +0x20c\n" ++
  "main.main()\n" ++
  "\tmain.go:9 +0x1d0\n")

end stackprint

/-!
# err3 and try: checked-value unwinding and scoped recovery

The sources of the packages `err3` and `try` are not part of the development; their
operations are modelled from the specification, checked against the tests and examples of
`err3/err3_test.go`, which are translated below.

A function body is a state transformer over the activation of the enclosing function: its
named error result, the registrations deferred so far and the log of observable effects.  It
either completes normally or ends in an unwind that carries a payload.
-/

namespace err3

open stackprint (GoString)

/-- Modelled from the spec: an error value (the package sources are missing), "a structured
error value carrying a message and an optional wrapped cause". -/
inductive GoError where
  /-- an error with a message only -/
  | new (msg : GoString)
  /-- an error with a message that wraps a cause -/
  | wrap (msg : GoString) (cause : GoError)
  deriving DecidableEq

/-- Go `Error()`: the message of an error value. -/
def GoError.Error : GoError → GoString
  | .new msg => msg
  | .wrap msg _ => msg

/-- Modelled from the spec: the payload of an in-flight unwind (Go `panic` value).  An error
value that is not a runtime error is what a check raises; a runtime fault (such as indexing a
nil slice) carries a `runtime.Error`; anything else, such as a string, is a plain value. -/
inductive Payload where
  /-- an error value that is not a runtime error -/
  | error (e : GoError)
  /-- a runtime fault -/
  | runtimeError (e : GoError)
  /-- any value that is not an error, given as `%v` formats it -/
  | value (v : GoString)
  deriving DecidableEq

/-- Modelled from the spec: the two classes of an unwind (section 4.1). -/
inductive Fault where
  /-- a recognized error carrier -/
  | Signaled (e : GoError)
  /-- anything else -/
  | Foreign (p : Payload)
  deriving DecidableEq

/-- Modelled from the spec: the fault classifier `classify(payload)` (the package sources are
missing).  A payload is Signaled iff it is the error carrier, an error value; a runtime fault
and any other value are Foreign. -/
def classify : Payload → Fault
  | .error e => .Signaled e
  | .runtimeError e => .Foreign (.runtimeError e)
  | .value v => .Foreign (.value v)

/-- Operand of a format string. -/
inductive Arg where
  /-- a string operand -/
  | str (s : GoString)
  /-- an integer operand -/
  | int (n : Int)
  deriving DecidableEq

/-- The default format of an operand. -/
def Arg.format : Arg → GoString
  | .str s => s
  | .int n => (toString n).toList

/-- The fragment of Go `fmt.Sprintf` used by the examples: the verbs `%s`, `%d` and `%v` print
the next operand, `%%` prints a percent sign. -/
def Sprintf : GoString → List Arg → GoString
  | [], _ => []
  | [c], _ => [c]
  | c :: d :: rest, args =>
    if c = '%' then
      if d = '%' then '%' :: Sprintf rest args
      else if d = 's' ∨ d = 'd' ∨ d = 'v' then
        match args with
        | a :: args1 => a.format ++ Sprintf rest args1
        | [] => c :: d :: Sprintf rest []
      else c :: d :: Sprintf rest args
    else c :: Sprintf (d :: rest) args

/-- Go `fmt.Errorf(format, args...)` without a wrapping verb. -/
def Errorf (format : GoString) (args : List Arg) : GoError :=
  .new (Sprintf format args)

/-- Modelled from the spec: the format annotation of section 4.3 (the package sources are
missing): "builds `<format-args>: <innerErrorMessage>`"; the annotated error wraps the inner
one. -/
def annotate (format : GoString) (args : List Arg) (e : GoError) : GoError :=
  .wrap (Sprintf format args ++ ": ".toList ++ e.Error) e

/-- Observable effect of running a body. -/
inductive Event where
  /-- an ordinary statement with the given label ran -/
  | stmt (label : GoString)
  /-- an error callback was invoked with the error -/
  | errorHandler (e : GoError)
  /-- a panic callback was invoked with the raw payload -/
  | panicHandler (p : Payload)
  deriving DecidableEq

/-- Modelled from the spec: a handler registration installed by `defer` (the package sources
are missing). -/
inductive Registration where
  /-- Go `err3.Handle(&err, nil)`: capture only -/
  | Handle
  /-- Go `err3.Handlef(&err, format, args...)`: format annotation -/
  | Handlef (format : GoString) (args : List Arg)
  /-- Go `err3.CatchAll(errorHandler, panicHandler)` -/
  | CatchAll
  /-- Go `err3.CatchError(errorHandler)` -/
  | CatchError
  deriving DecidableEq

/-- The activation of a function while its body runs. -/
structure Scope where
  /-- the named error result `err` -/
  err : Option GoError
  /-- the deferred registrations, the most recently installed first -/
  deferred : List Registration
  /-- the effects observed so far -/
  log : List Event
  deriving DecidableEq

/-- How a body ends. -/
inductive Outcome (α : Type) where
  /-- normal completion with a value -/
  | normal (a : α)
  /-- an unwind in flight -/
  | unwind (p : Payload)
  deriving DecidableEq

/-- A function body, or a part of one. -/
abbrev Body (α : Type) := Scope → Outcome α × Scope

/-- Sequencing of statements: after an unwind nothing more of the body runs. -/
def Body.bind {α β : Type} (b : Body α) (k : α → Body β) : Body β := fun s =>
  match b s with
  | (.normal a, s1) => k a s1
  | (.unwind p, s1) => (.unwind p, s1)

/-- Go `defer r`. -/
def Defer (r : Registration) : Body Unit := fun s =>
  (.normal (), { s with deferred := r :: s.deferred })

/-- An ordinary statement; it records that it ran. -/
def Stmt (label : GoString) : Body Unit := fun s =>
  (.normal (), { s with log := s.log ++ [.stmt label] })

/-- Go `panic(v)`, and a runtime fault. -/
def Panic {α : Type} (p : Payload) : Body α := fun s => (.unwind p, s)

/-- Go `return err` in a function with the named result `err`. -/
def ReturnErr : Body Unit := fun s => (.normal (), s)

/-- Modelled from the spec: `try.Check(err)` (the package sources are missing), section 4.2:
an absent error returns normally, a present error raises an unwind carrying it. -/
def Check (err : Option GoError) : Body Unit := fun s =>
  match err with
  | none => (.normal (), s)
  | some e => (.unwind (.error e), s)

/-- Modelled from the spec: `try.Check1(v, err)` (the package sources are missing). -/
def Check1 {α : Type} (v : α) (err : Option GoError) : Body α := fun s =>
  match err with
  | none => (.normal v, s)
  | some e => (.unwind (.error e), s)

/-- Modelled from the spec: `try.Check2(v1, v2, err)` (the package sources are missing). -/
def Check2 {α β : Type} (v1 : α) (v2 : β) (err : Option GoError) : Body (α × β) := fun s =>
  match err with
  | none => (.normal (v1, v2), s)
  | some e => (.unwind (.error e), s)

/-- Modelled from the spec: `try.Check3(v1, v2, v3, err)` (the package sources are
missing). -/
def Check3 {α β γ : Type} (v1 : α) (v2 : β) (v3 : γ) (err : Option GoError) :
    Body (α × β × γ) := fun s =>
  match err with
  | none => (.normal (v1, v2, v3), s)
  | some e => (.unwind (.error e), s)

/-- Modelled from the spec: `try.Try1(v, err)(handlers...)` (the package sources are missing),
the check with inline transforms of section 4.2: the transforms are invoked in declaration
order immediately before the unwind is raised, each replacing the error. -/
def Try1 {α : Type} (v : α) (err : Option GoError) (handlers : List (GoError → GoError)) :
    Body α := fun s =>
  match err with
  | none => (.normal v, s)
  | some e => (.unwind (.error (handlers.foldl (fun e1 h => h e1) e)), s)

/-- Modelled from the spec: `try.Fmt(format, args...)` (the package sources are missing), the
formatting transform. -/
def Fmt (format : GoString) (args : List Arg) : GoError → GoError :=
  annotate format args

/-- Modelled from the spec: the state of a scope on exit, as a deferred call observes it
through `recover()` (section 4.3): either no unwind is in flight, or one is, with its payload.
A registration that terminates the unwind leaves the scope `Idle`: the registrations that run
after it see `recover()` return nil, exactly as on a normal exit.  A re-raised unwind stays
`Unwinding`. -/
inductive Exit where
  /-- no unwind in flight -/
  | Idle
  /-- an unwind with this payload is in flight -/
  | Unwinding (p : Payload)
  deriving DecidableEq

/-- The activation of a function while its deferred registrations run. -/
structure ExitState where
  /-- is an unwind in flight? -/
  status : Exit
  /-- the named error result `err` -/
  err : Option GoError
  /-- the effects observed so far -/
  log : List Event
  deriving DecidableEq

/-- Modelled from the spec: what a registration does when the scope exits (the package sources
are missing), section 4.3.  A Signaled unwind is terminated: `Handle` and `Handlef` write the
(annotated) error to the output slot, the catch registrations invoke the error callback.  A
Foreign unwind is re-raised with the same payload, except by `CatchAll`, which invokes the
panic callback and terminates it.  Without an unwind in flight, which is what a registration
sees on a normal exit and also after an inner registration of the chain has terminated the
unwind, `Handle` and the catch registrations do nothing, and `Handlef` prepends its annotation
to the error in the slot, if there is one (`ExampleHandlef_deferStack`). -/
def Registration.fire (r : Registration) (x : ExitState) : ExitState :=
  match x.status with
  | .Idle =>
    match r with
    | .Handlef format args => { x with err := x.err.map (annotate format args) }
    | _ => x
  | .Unwinding p =>
    match classify p with
    | .Signaled e =>
      match r with
      | .Handle => { x with status := .Idle, err := some e }
      | .Handlef format args =>
        { x with status := .Idle, err := some (annotate format args e) }
      | .CatchAll => { x with status := .Idle, log := x.log ++ [.errorHandler e] }
      | .CatchError => { x with status := .Idle, log := x.log ++ [.errorHandler e] }
    | .Foreign q =>
      match r with
      | .CatchAll => { x with status := .Idle, log := x.log ++ [.panicHandler q] }
      | _ => x

/-- What the caller of a function observes. -/
structure CallResult (α : Type) where
  /-- the payload, when the call ends in an unwind that propagates to the caller -/
  panicked : Option Payload
  /-- the value returned by the body, when it completed normally -/
  value : Option α
  /-- the error result -/
  err : Option GoError
  /-- the effects observed so far -/
  log : List Event
  deriving DecidableEq

/-- The deferred registrations run when the scope exits, the most recently installed first. -/
def runDeferred (ds : List Registration) (x : ExitState) : ExitState :=
  ds.foldl (fun x1 r => r.fire x1) x

/-- A call of a function with the given body: the body runs in a fresh activation, then the
deferred registrations run. -/
def call {α : Type} (body : Body α) (log : List Event) : CallResult α :=
  match body { err := none, deferred := [], log := log } with
  | (out, s) =>
    let status : Exit :=
      match out with
      | .normal _ => .Idle
      | .unwind p => .Unwinding p
    let x := runDeferred s.deferred { status := status, err := s.err, log := s.log }
    { panicked :=
        match x.status with
        | .Unwinding p => some p
        | _ => none
      value :=
        match out with
        | .normal a => some a
        | .unwind _ => none
      err := x.err
      log := x.log }

/-- A call of a function returning an error, as a statement of the caller: an unwind that
leaves the callee continues in the caller. -/
def Call {α : Type} (body : Body α) : Body (Option GoError) := fun s =>
  match (call body s.log).panicked with
  | some p => (.unwind p, { s with log := (call body s.log).log })
  | none => (.normal (call body s.log).err, { s with log := (call body s.log).log })

/-! ## Functions of `err3_test.go` -/

/-- The error of Go `func throw() (string, error)`. -/
def throwErr : GoError := Errorf "this is an ERROR".toList []

/-- Go `annotated` of `ExampleHandlef`. -/
def annotatedHandlef : Body Unit :=
  (Defer (.Handlef "annotated".toList [])).bind fun _ =>
  (Check1 ([] : GoString) (some throwErr)).bind fun _ =>
  ReturnErr

/-- Go `annotated` of `ExampleHandlef_format_args`. -/
def annotatedFormatArgs : Body Unit :=
  (Defer (.Handlef "annotated: %s".toList [.str "err3".toList])).bind fun _ =>
  (Check1 ([] : GoString) (some throwErr)).bind fun _ =>
  ReturnErr

/-- Go `annotated` of `ExampleHandlef_deferStack`. -/
def annotatedDeferStack : Body Unit :=
  (Defer (.Handlef "3rd".toList [])).bind fun _ =>
  (Defer (.Handlef "2nd".toList [])).bind fun _ =>
  (Try1 ([] : GoString) (some throwErr) [Fmt "1st".toList []]).bind fun _ =>
  ReturnErr

/-- Go `const recursionLimit = 77`. -/
def recursionLimit : Nat := 77

/-- Go `recursion` of `ExampleHandlef_panic`; the argument is a non-negative `int` in both
calls. -/
def recursion : Nat → Body Nat
  | 0 => fun s => (.normal 0, s)
  | i + 1 =>
    if i + 1 > recursionLimit then
      Panic (.error (Errorf "helper failed at: %d".toList [.int (i + 1 : Nat)]))
    else (recursion i).bind fun r => fun s => (.normal (i + 1 + r), s)

/-- Go `annotated` of `ExampleHandlef_panic`. -/
def annotatedPanic : Body Unit :=
  (Defer (.Handlef "annotated: %s".toList [.str "err3".toList])).bind fun _ =>
  (recursion 12).bind fun r =>
  (recursion r).bind fun _ =>
  ReturnErr

/-- Go `return e` in a function with the named result `err`, and the assignment `err = e`
followed by `return err`. -/
def Return (e : Option GoError) : Body Unit := fun s =>
  (.normal (), { s with err := e })

/-- Go `errHandlefOnly`, with the error of the checked call as a parameter (the error of
`throw()` in the source). -/
def errHandlefOnlyWith (e : GoError) : Body Unit :=
  (Defer (.Handlef "handle top".toList [])).bind fun _ =>
  (Defer (.Handlef "handle error".toList [])).bind fun _ =>
  (Check1 ([] : GoString) (some e)).bind fun _ =>
  (Defer (.Handlef "handle error".toList [])).bind fun _ =>
  (Check1 ([] : GoString) (some e)).bind fun _ =>
  (Defer (.Handlef "handle error".toList [])).bind fun _ =>
  (Check1 ([] : GoString) (some e)).bind fun _ =>
  ReturnErr

/-- Go `func errHandlefOnly() (err error)`. -/
def errHandlefOnly : Body Unit := errHandlefOnlyWith throwErr

/-- Go `ExampleHandle`: a deferred `err3.Handle(&err, nil)` and a check that does not
raise. -/
def exampleHandle : Body Unit :=
  (Defer .Handle).bind fun _ =>
  (Check1 "test".toList none).bind fun _ =>
  ReturnErr

end err3

/-!
# assert: the registry of testers

Shallow embedding of `assert/assert.go`.  The type `Asserter`, its flag constants and its
methods are declared in a file that is not part of the development: the value of the flag
`AsserterUnitTesting` is a parameter, the method `isUnitTesting` is modelled from the
specification, and a call of `reportAssertionFault` is recorded as an event.  The identifier
`goid()` of the calling goroutine is an input.
-/

namespace assert

open stackprint (GoString)

/-- The package state: Go `var DefaultAsserter` (a bit mask) and `var testers
map[int]testing.TB`.  A lookup cannot tell a missing key from a nil tester, so the map is the
function from the goroutine id to the tester, `none` standing for nil. -/
structure State (TB : Type) where
  /-- the flags of the default asserter -/
  DefaultAsserter : Nat
  /-- the registry of testers -/
  testers : Int → Option TB

/-- Go `func PushTester(t testing.TB)`, called on goroutine `goid`. -/
def PushTester {TB : Type} (AsserterUnitTesting : Nat) (goid : Int) (t : Option TB)
    (st : State TB) : State TB :=
  { DefaultAsserter :=
      if st.DefaultAsserter &&& AsserterUnitTesting = 0 then
        st.DefaultAsserter ||| AsserterUnitTesting
      else st.DefaultAsserter
    testers := fun g => if g = goid then t else st.testers g }

/-- Go `func PopTester()`, called on goroutine `goid`. -/
def PopTester {TB : Type} (goid : Int) (st : State TB) : State TB :=
  { st with testers := fun g => if g = goid then none else st.testers g }

/-- Go `func tester() testing.TB`, called on goroutine `goid`. -/
def tester {TB : Type} (goid : Int) (st : State TB) : Option TB :=
  st.testers goid

/-- Modelled from the spec: Go `func (asserter Asserter) isUnitTesting() bool` (declared
outside the sources at hand), called on goroutine `goid`.  Section 4.5 describes the flag as
"a per-thread test-reporting context is active" and the registry as holding the context of
each execution unit: the asserter is unit testing when the flag is set and a context is
registered for the calling goroutine, that is, when `tester()` is not nil. -/
def isUnitTesting {TB : Type} (AsserterUnitTesting : Nat) (goid : Int) (st : State TB)
    (asserter : Nat) : Bool :=
  asserter &&& AsserterUnitTesting != 0 && (tester goid st).isSome

/-- What an assertion does. -/
inductive Event (TB A : Type) where
  /-- the call `t.Helper()` on a tester -/
  | Helper (t : TB)
  /-- the call of a method on a nil interface value: a runtime panic, after which nothing more
  of the function runs -/
  | nilDereference
  /-- the call `asserter.reportAssertionFault(defMsg, a...)` -/
  | reportAssertionFault (asserter : Nat) (defMsg : GoString) (a : List A)
  deriving DecidableEq

/-- Go `func That(term bool, a ...any)`, called on goroutine `goid`: the calls it makes, in
order. -/
def That {TB A : Type} (AsserterUnitTesting : Nat) (goid : Int) (st : State TB)
    (term : Bool) (a : List A) : List (Event TB A) :=
  if !term then
    if isUnitTesting AsserterUnitTesting goid st st.DefaultAsserter then
      match tester goid st with
      | some t =>
        [.Helper t, .reportAssertionFault st.DefaultAsserter "assertion violation".toList a]
      | none => [.nilDereference]
    else [.reportAssertionFault st.DefaultAsserter "assertion violation".toList a]
  else []

/-- Go `func ThatNot(term bool, a ...any)`. -/
def ThatNot {TB A : Type} (AsserterUnitTesting : Nat) (goid : Int) (st : State TB)
    (term : Bool) (a : List A) : List (Event TB A) :=
  That AsserterUnitTesting goid st (!term) a

end assert

namespace stackprint

/-! ## The scanner: segments, tokens and the tee buffer -/

theorem splitNL_cons_nl (cs : GoString) :
    splitNL ('\n' :: cs) = ([] :: (splitNL cs).1, (splitNL cs).2) := by
  simp [splitNL]

theorem splitNL_noNL (d : GoString) :
    (∀ l ∈ (splitNL d).1, '\n' ∉ l) ∧ '\n' ∉ (splitNL d).2 := by
  induction d with
  | nil => simp [splitNL]
  | cons c cs ih =>
    obtain ⟨ih1, ih2⟩ := ih
    rw [splitNL]
    rcases h : splitNL cs with ⟨ls, rem⟩
    rw [h] at ih1 ih2
    simp only at ih1 ih2 ⊢
    by_cases hc : c = '\n'
    · simp only [hc, if_true]
      refine ⟨?_, ih2⟩
      intro l hl
      rcases List.mem_cons.1 hl with rfl | hl
      · simp
      · exact ih1 l hl
    · simp only [hc, if_false]
      cases ls with
      | nil =>
        refine ⟨by simp, ?_⟩
        simp only [List.mem_cons, not_or]
        exact ⟨fun e => hc e.symm, ih2⟩
      | cons l ls1 =>
        refine ⟨?_, ih2⟩
        intro x hx
        rcases List.mem_cons.1 hx with rfl | hx
        · simp only [List.mem_cons, not_or]
          exact ⟨fun e => hc e.symm, ih1 l (List.mem_cons_self _ _)⟩
        · exact ih1 x (List.mem_cons_of_mem _ hx)

theorem splitNL_of_noNL (l : GoString) (h : '\n' ∉ l) : splitNL l = ([], l) := by
  induction l with
  | nil => rfl
  | cons c cs ih =>
    simp only [List.mem_cons, not_or] at h
    rw [splitNL, ih h.2]
    have hc : c ≠ '\n' := fun e => h.1 e.symm
    simp [hc]

theorem splitNL_append_nl (l d : GoString) (h : '\n' ∉ l) :
    splitNL (l ++ '\n' :: d) = (l :: (splitNL d).1, (splitNL d).2) := by
  induction l with
  | nil => simpa using splitNL_cons_nl d
  | cons c cs ih =>
    simp only [List.mem_cons, not_or] at h
    have hc : c ≠ '\n' := fun e => h.1 e.symm
    rw [List.cons_append, splitNL, ih h.2]
    simp [hc]

theorem joinLines_cons (l : GoString) (ls : List GoString) :
    joinLines (l :: ls) = l ++ '\n' :: joinLines ls := by
  simp [joinLines]

theorem joinLines_splitNL (d : GoString) : joinLines (splitNL d).1 ++ (splitNL d).2 = d := by
  induction d with
  | nil => simp [splitNL, joinLines]
  | cons c cs ih =>
    rw [splitNL]
    rcases h : splitNL cs with ⟨ls, rem⟩
    rw [h] at ih
    simp only at ih ⊢
    by_cases hc : c = '\n'
    · simp only [hc, if_true, joinLines_cons, List.nil_append, List.cons_append, ih]
    · simp only [hc, if_false]
      cases ls with
      | nil => simpa [joinLines] using ih
      | cons l ls1 =>
        simp only [joinLines_cons, List.cons_append] at ih ⊢
        rw [ih]


theorem maxScanTokenSize_pos : 0 < maxScanTokenSize := by decide

theorem scanLines_of_noNL (l : GoString) (h : '\n' ∉ l) :
    scanLines l = if l = [] ∨ ¬ l.length < maxScanTokenSize then [] else [dropCR l] := by
  simp [scanLines, splitNL_of_noNL l h, scanSegs]

theorem scanLines_append_nl (l d : GoString) (h : '\n' ∉ l) :
    scanLines (l ++ '\n' :: d) =
      if l.length < maxScanTokenSize then dropCR l :: scanLines d else [] := by
  simp [scanLines, splitNL_append_nl l d h, scanSegs]

theorem not_mem_take {l : GoString} (n : Nat) (h : '\n' ∉ l) : '\n' ∉ l.take n :=
  fun hm => h (List.mem_of_mem_take hm)

/-- A scanner run over what an earlier scanner pulled from the reader sees the same tokens. -/
theorem scanLines_readSegs (ls : List GoString) (rem : GoString)
    (hls : ∀ l ∈ ls, '\n' ∉ l) (hrem : '\n' ∉ rem) :
    scanLines (readSegs ls rem) = scanSegs ls rem := by
  induction ls with
  | nil =>
    rw [readSegs, scanLines_of_noNL _ (not_mem_take _ hrem), scanSegs]
    by_cases hlen : rem.length < maxScanTokenSize
    · rw [List.take_of_length_le (Nat.le_of_lt hlen)]
    · have h1 : (rem.take maxScanTokenSize).length = maxScanTokenSize := by
        rw [List.length_take]; omega
      simp [hlen, h1]
  | cons l ls ih =>
    have hl : '\n' ∉ l := hls l (List.mem_cons_self _ _)
    have ih1 := ih (fun x hx => hls x (List.mem_cons_of_mem _ hx))
    rw [readSegs, scanSegs]
    by_cases hlen : l.length < maxScanTokenSize
    · simp only [hlen, if_true]
      rw [scanLines_append_nl _ _ hl, ih1]
      simp [hlen]
    · simp only [hlen, if_false]
      rw [scanLines_of_noNL _ (not_mem_take _ hl)]
      have h1 : (l.take maxScanTokenSize).length = maxScanTokenSize := by
        rw [List.length_take]; omega
      simp [h1]

theorem scanLines_teeRead (r : GoString) : scanLines (teeRead r) = scanLines r := by
  unfold teeRead
  rw [scanLines_readSegs _ _ (splitNL_noNL r).1 (splitNL_noNL r).2]
  rfl

theorem not_mem_dropCR {l : GoString} (h : '\n' ∉ l) : '\n' ∉ dropCR l := by
  unfold dropCR
  split
  · exact fun hm => h (List.mem_of_mem_dropLast hm)
  · exact h

theorem scanSegs_noNL (ls : List GoString) (rem : GoString)
    (hls : ∀ l ∈ ls, '\n' ∉ l) (hrem : '\n' ∉ rem) :
    ∀ t ∈ scanSegs ls rem, '\n' ∉ t := by
  induction ls with
  | nil =>
    intro t ht
    rw [scanSegs] at ht
    split at ht
    · simp at ht
    · rw [List.mem_singleton] at ht
      rw [ht]; exact not_mem_dropCR hrem
  | cons l ls ih =>
    intro t ht
    rw [scanSegs] at ht
    split at ht
    · rcases List.mem_cons.1 ht with rfl | ht
      · exact not_mem_dropCR (hls l (List.mem_cons_self _ _))
      · exact ih (fun x hx => hls x (List.mem_cons_of_mem _ hx)) t ht
    · simp at ht

/-- No token of the scanner contains a newline byte. -/
theorem scanLines_noNL (r : GoString) : ∀ t ∈ scanLines r, '\n' ∉ t :=
  scanSegs_noNL _ _ (splitNL_noNL r).1 (splitNL_noNL r).2

theorem lineCount_joinLines (ls : List GoString) (h : ∀ l ∈ ls, '\n' ∉ l) :
    lineCount (joinLines ls) = ls.length := by
  induction ls with
  | nil => simp [joinLines, lineCount]
  | cons l ls ih =>
    have hl : '\n' ∉ l := h l (List.mem_cons_self _ _)
    have ih1 := ih (fun x hx => h x (List.mem_cons_of_mem _ hx))
    unfold lineCount at ih1 ⊢
    rw [joinLines_cons, List.count_append, List.count_cons_self, ih1,
      List.count_eq_zero_of_not_mem hl]
    simp

theorem splitNL_rem_of_terminated (r : GoString) (h : NewlineTerminated r) :
    (splitNL r).2 = [] := by
  by_contra hne
  have hj := joinLines_splitNL r
  have hl : r.getLast? = (splitNL r).2.getLast? := by
    conv_lhs => rw [← hj]
    exact List.getLast?_append_of_ne_nil _ hne
  unfold NewlineTerminated at h
  rw [hl] at h
  exact (splitNL_noNL r).2 (List.mem_of_getLast?_eq_some h)

theorem scanSegs_plain (ls : List GoString)
    (h : ∀ l ∈ ls, l.getLast? ≠ some '\r' ∧ l.length < maxScanTokenSize) :
    scanSegs ls [] = ls ∧ readSegs ls [] = joinLines ls := by
  induction ls with
  | nil => simp [scanSegs, readSegs, joinLines]
  | cons l ls ih =>
    obtain ⟨h1, h2⟩ := h l (List.mem_cons_self _ _)
    obtain ⟨ih1, ih2⟩ := ih (fun x hx => h x (List.mem_cons_of_mem _ hx))
    rw [scanSegs, readSegs, ih1, ih2, joinLines_cons]
    simp [h2, dropCR, h1]

/-- On a newline-terminated input of plain lines the scanner returns the segments unchanged,
and the tee buffer holds the whole input. -/
theorem scan_plain (r : GoString) (ht : NewlineTerminated r) (hp : PlainLines r) :
    scanLines r = (splitNL r).1 ∧ teeRead r = r ∧ joinLines (splitNL r).1 = r := by
  have hrem := splitNL_rem_of_terminated r ht
  have hj := joinLines_splitNL r
  rw [hrem, List.append_nil] at hj
  obtain ⟨h1, h2⟩ := scanSegs_plain _ hp
  refine ⟨?_, ?_, hj⟩
  · unfold scanLines; rw [hrem, h1]
  · unfold teeRead; rw [hrem, h2, hj]


theorem joinLines_length (ls : List GoString) : ls.length ≤ (joinLines ls).length := by
  induction ls with
  | nil => simp [joinLines]
  | cons l ls ih => rw [joinLines_cons]; simp; omega

theorem scanSegs_length (ls : List GoString) (rem : GoString) :
    (scanSegs ls rem).length ≤ ls.length + rem.length := by
  induction ls with
  | nil =>
    rw [scanSegs]
    split
    · simp
    · rename_i h
      have : rem ≠ [] := fun e => h (Or.inl e)
      have := List.length_pos.2 this
      simp; omega
  | cons l ls ih =>
    rw [scanSegs]
    split
    · simp; omega
    · simp

/-- The scanner yields at most one line per byte of input. -/
theorem scanLines_length_le (r : GoString) : (scanLines r).length ≤ r.length := by
  have h1 := scanSegs_length (splitNL r).1 (splitNL r).2
  have h2 := joinLines_length (splitNL r).1
  have h3 := congrArg List.length (joinLines_splitNL r)
  rw [List.length_append] at h3
  unfold scanLines
  omega

/-! ## The scan loop of `calc` -/

theorem lastMatch_lt (p : GoString → Bool) (fs : List GoString) (k : Nat)
    (h : lastMatch p fs = some k) : k < fs.length := by
  induction fs generalizing k with
  | nil => simp [lastMatch] at h
  | cons f fs ih =>
    rw [lastMatch] at h
    cases hl : lastMatch p fs with
    | some j =>
      rw [hl] at h
      simp only [Option.some.injEq] at h
      have := ih j hl
      simp only [List.length_cons]; omega
    | none =>
      rw [hl] at h
      simp only at h
      split at h
      · simp only [Option.some.injEq] at h
        simp only [List.length_cons]; omega
      · simp at h

theorem lastMatch_none (p : GoString → Bool) (fs : List GoString)
    (h : ∀ f ∈ fs, p f = false) : lastMatch p fs = none := by
  induction fs with
  | nil => rfl
  | cons f fs ih =>
    rw [lastMatch, ih (fun x hx => h x (List.mem_cons_of_mem _ hx))]
    simp [h f (List.mem_cons_self _ _)]

/-- The index `k` is found when frame `k` matches and no later frame does. -/
theorem lastMatch_some (p : GoString → Bool) (fs : List GoString) (k : Nat) (f : GoString)
    (hk : fs[k]? = some f) (hp : p f = true)
    (hlast : ∀ j g, k < j → fs[j]? = some g → p g = false) : lastMatch p fs = some k := by
  induction fs generalizing k with
  | nil => simp at hk
  | cons x xs ih =>
    rw [lastMatch]
    cases k with
    | zero =>
      simp only [List.getElem?_cons_zero, Option.some.injEq] at hk
      have hn : lastMatch p xs = none := by
        apply lastMatch_none
        intro g hg
        obtain ⟨j, hj⟩ := List.getElem?_of_mem hg
        exact hlast (j + 1) g (Nat.succ_pos j) (by simpa using hj)
      rw [hn, hk]
      simp [hp]
    | succ k =>
      simp only [List.getElem?_cons_succ] at hk
      have := ih k hk (fun j g hj hg => hlast (j + 1) g (by omega) (by simpa using hg))
      rw [this]

theorem lastMatch_congr (p q : GoString → Bool) (fs : List GoString)
    (h : ∀ f ∈ fs, p f = q f) : lastMatch p fs = lastMatch q fs := by
  induction fs with
  | nil => rfl
  | cons f fs ih =>
    rw [lastMatch, lastMatch, ih (fun x hx => h x (List.mem_cons_of_mem _ hx)),
      h f (List.mem_cons_self _ _)]

theorem calcLoop_frames (p : GoString → Bool) (fs : List GoString) (i a : Int) (hi : 0 ≤ i) :
    calcLoop p fs (i, a) =
      (i + fs.length, match lastMatch p fs with
        | some k => i + k
        | none => a) := by
  induction fs generalizing i a with
  | nil => simp [calcLoop, lastMatch]
  | cons f fs ih =>
    have hi1 : i > -1 := by omega
    rw [calcLoop, ih _ _ (by omega), lastMatch]
    simp only [List.length_cons, Nat.cast_add, Nat.cast_one, hi1, decide_True, Bool.true_and]
    cases lastMatch p fs with
    | some k =>
      simp only [Prod.mk.injEq]
      constructor <;> (push_cast; ring)
    | none =>
      cases hp : p f <;> simp <;> ring

/-- What `calc` returns, in terms of the scanned lines. -/
theorem calcWith_eq (r : GoString) (p : GoString → Bool) :
    calcWith r p =
      match scanLines r with
      | [] => nilAnchor
      | _ :: fs => anchorOf p fs := by
  unfold calcWith
  cases scanLines r with
  | nil => simp [calcLoop, nilAnchor]
  | cons c fs =>
    have h0 : calcLoop p (c :: fs) (-1, nilAnchor) = calcLoop p fs (0, nilAnchor) := by
      rw [calcLoop]; simp
    rw [h0, calcLoop_frames p fs 0 nilAnchor (le_refl 0)]
    cases hl : lastMatch p fs with
    | some k =>
      simp only [zero_add, anchorOf, hl]
      by_cases hk : (k : Int) + 1 = fs.length
      · have : (fs.length : Int) - 1 = k := by omega
        simp [hk, this]
      · have : ¬ ((fs.length : Int) - 1 = k) := by omega
        simp [hk, this]
    | none => simp [anchorOf, hl]

theorem calcWith_teeRead (r : GoString) (p : GoString → Bool) :
    calcWith (teeRead r) p = calcWith r p := by
  rw [calcWith_eq, calcWith_eq, scanLines_teeRead]

/-- A found anchor is the index of a frame that is not the final one. -/
theorem anchorOf_bound (p : GoString → Bool) (fs : List GoString)
    (h : anchorOf p fs ≠ nilAnchor) : 0 ≤ anchorOf p fs ∧ anchorOf p fs + 1 < fs.length := by
  unfold anchorOf at h ⊢
  cases hl : lastMatch p fs with
  | none => rw [hl] at h; simp at h
  | some k =>
    rw [hl] at h
    simp only at h ⊢
    have hk := lastMatch_lt p fs k hl
    split
    · rename_i he; simp [he] at h
    · rename_i hne
      constructor
      · omega
      · omega

/-- The two passes of `calcAnchor` read the same lines. -/
theorem calcAnchor_eq (r : GoString) (si : stackInfo) :
    calcAnchor r si =
      if si.FuncName ≠ [] ∧ si.Regexp.isSome = true then
        if calcWith r si.isFuncAnchor ≠ nilAnchor ∧ calcWith r si.isFuncAnchor > calcWith r si.isAnchor
        then calcWith r si.isFuncAnchor
        else calcWith r si.isAnchor
      else calcWith r si.isAnchor := by
  unfold calcAnchor
  simp only [calcWith_teeRead]

/-! ## The print loop of `stackPrint` -/

theorem int64_add_int64 (a b : Int) : int64 (int64 a + b) = int64 (a + b) := by
  unfold int64; omega

theorem int64_of_range (x : Int) (h1 : -9223372036854775808 ≤ x) (h2 : x < 9223372036854775808) :
    int64 x = x := by
  unfold int64; omega

theorem printLoop_nil (si : stackInfo) (ls : List GoString) (i : Int) (w : GoString) :
    printLoop si nilAnchor ls i w = w ++ joinLines ls := by
  induction ls generalizing i w with
  | nil => simp [printLoop, joinLines]
  | cons l ls ih =>
    rw [printLoop, joinLines_cons]
    simp [ih]

theorem printLoop_frames (si : stackInfo) (a : Int) (ha : a ≠ nilAnchor) (fs : List GoString)
    (i : Int) (w : GoString) (hi : 0 ≤ i) :
    printLoop si a fs i w = w ++ joinLines (fs.drop (threshold si a - i).toNat) := by
  induction fs generalizing i w with
  | nil => simp [printLoop, joinLines]
  | cons f fs ih =>
    have hi1 : ¬ i = -1 := by omega
    rw [printLoop, ih _ _ (by omega)]
    simp only [ha, decide_False, Bool.not_false, if_true, hi1, Bool.false_or]
    by_cases hge : i ≥ threshold si a
    · have e1 : (threshold si a - i).toNat = 0 := by omega
      have e2 : (threshold si a - (i + 1)).toNat = 0 := by omega
      have hge1 : i ≥ int64 (int64 (2 * si.Level) + a) := hge
      simp [hge1, e1, e2, joinLines_cons]
    · have e1 : (threshold si a - i).toNat = (threshold si a - (i + 1)).toNat + 1 := by omega
      have hge1 : ¬ i ≥ int64 (int64 (2 * si.Level) + a) := hge
      simp [hge1, e1]

/-- What `stackPrint` writes, in terms of the scanned lines of its input. -/
theorem stackPrint_eq (r : GoString) (si : stackInfo) :
    stackPrint r si =
      match scanLines r with
      | [] => []
      | c :: fs =>
        if calcAnchor r si = nilAnchor then joinLines (c :: fs)
        else joinLines (c :: fs.drop (threshold si (calcAnchor r si)).toNat) := by
  unfold stackPrint
  simp only [scanLines_teeRead]
  cases scanLines r with
  | nil => simp [printLoop]
  | cons c fs =>
    by_cases hn : calcAnchor r si = nilAnchor
    · simp only [hn, if_true]
      rw [printLoop_nil]; simp
    · simp only [hn, if_false]
      rw [printLoop]
      simp only [hn, decide_False, Bool.not_false, if_true, decide_True, Bool.true_or]
      rw [printLoop_frames si _ hn fs _ _ (by omega)]
      simp [joinLines_cons]


theorem calcWith_frames (r : GoString) (p : GoString → Bool) :
    calcWith r p = anchorOf p (frameLines r) := by
  rw [calcWith_eq, frameLines]
  cases scanLines r with
  | nil => simp [anchorOf, lastMatch]
  | cons c fs => simp

theorem calcWith_bound (r : GoString) (p : GoString → Bool) (h : calcWith r p ≠ nilAnchor) :
    0 ≤ calcWith r p ∧ calcWith r p + 1 < (frameLines r).length := by
  rw [calcWith_frames] at h ⊢
  exact anchorOf_bound p _ h

/-- A found anchor of `calcAnchor` is the index of a frame line that is not the final one. -/
theorem calcAnchor_bound (r : GoString) (si : stackInfo) (h : calcAnchor r si ≠ nilAnchor) :
    0 ≤ calcAnchor r si ∧ calcAnchor r si + 1 < (frameLines r).length := by
  rw [calcAnchor_eq] at h ⊢
  split at h
  · split at h
    · rename_i h1 h2
      rw [if_pos h1, if_pos h2]
      exact calcWith_bound r _ h
    · rename_i h1 h2
      rw [if_pos h1, if_neg h2]
      exact calcWith_bound r _ h
  · rename_i h1
    rw [if_neg h1]
    exact calcWith_bound r _ h

theorem threshold_eq (si : stackInfo) (a : Int) : threshold si a = int64 (2 * si.Level + a) :=
  int64_add_int64 _ _

/-- What `stackPrint` writes for a found anchor, in terms of caption and frame lines. -/
theorem stackPrint_found (r : GoString) (si : stackInfo) (h : calcAnchor r si ≠ nilAnchor) :
    ∃ c, scanLines r = c :: frameLines r ∧
      stackPrint r si =
        joinLines (c :: (frameLines r).drop (int64 (2 * si.Level + calcAnchor r si)).toNat) := by
  have hb := calcAnchor_bound r si h
  have hs := stackPrint_eq r si
  unfold frameLines at hb ⊢
  cases hsc : scanLines r with
  | nil => rw [hsc] at hb; simp at hb; omega
  | cons c fs =>
    rw [hsc] at hs
    simp only [h, if_false, threshold_eq] at hs
    exact ⟨c, rfl, hs⟩

theorem stackPrint_nil (r : GoString) (si : stackInfo) (h : calcAnchor r si = nilAnchor) :
    stackPrint r si = joinLines (scanLines r) := by
  rw [stackPrint_eq]
  cases scanLines r with
  | nil => simp [joinLines]
  | cons c fs => simp [h]

theorem lineCount_stackPrint_found (r : GoString) (si : stackInfo)
    (hA : calcAnchor r si ≠ nilAnchor) :
    lineCount (stackPrint r si) =
      1 + ((frameLines r).length - (int64 (2 * si.Level + calcAnchor r si)).toNat) := by
  obtain ⟨c, hc, hout⟩ := stackPrint_found r si hA
  have hno : ∀ l ∈ c :: (frameLines r).drop (int64 (2 * si.Level + calcAnchor r si)).toNat,
      '\n' ∉ l := by
    intro l hl
    apply scanLines_noNL r
    rw [hc]
    rcases List.mem_cons.1 hl with rfl | hl
    · exact List.mem_cons_self _ _
    · exact List.mem_cons_of_mem _ (List.mem_of_mem_drop hl)
  rw [hout, lineCount_joinLines _ hno]
  simp only [List.length_cons, List.length_drop]
  omega

/-! ## Trimming -/

theorem scanSegs_length_terminated (ls : List GoString) :
    (scanSegs ls []).length ≤ ls.length := by
  have := scanSegs_length ls []
  simpa using this

theorem lineCount_terminated (r : GoString) (ht : NewlineTerminated r) :
    (scanLines r).length ≤ lineCount r := by
  have hrem := splitNL_rem_of_terminated r ht
  have hj := joinLines_splitNL r
  rw [hrem, List.append_nil] at hj
  have hc := lineCount_joinLines (splitNL r).1 (splitNL_noNL r).1
  rw [hj] at hc
  rw [hc]
  unfold scanLines
  rw [hrem]
  exact scanSegs_length_terminated _

/-- C4 (as stated) fails: on a newline-terminated trace whose lines end in a carriage return
no anchor is found, and the output differs from the input (the carriage returns are gone). -/
theorem untrimmed_output_differs_on_cr :
    NewlineTerminated crTrace ∧
    calcAnchor crTrace ⟨[], "panic(".toList, 0, none⟩ = nilAnchor ∧
    stackPrint crTrace ⟨[], "panic(".toList, 0, none⟩ ≠ crTrace := by
  decide!

/-- C4 (amended): for a newline-terminated input whose lines do not end in a carriage return
and are shorter than the scanner's buffer, and every criterion for which `calcAnchor` returns
`nilAnchor`, the output of `stackPrint` equals its input exactly. -/
theorem stackPrint_nilAnchor_identity (r : GoString) (si : stackInfo)
    (ht : NewlineTerminated r) (hp : PlainLines r) (hA : calcAnchor r si = nilAnchor) :
    stackPrint r si = r := by
  obtain ⟨h1, _, h3⟩ := scan_plain r ht hp
  rw [stackPrint_nil r si hA, h1, h3]

/-- Witness of C4 (amended): a trace without a `panic(` frame, at level 3. -/
theorem stackPrint_nilAnchor_identity_witness :
    stackPrint shortTrace ⟨[], "panic(".toList, 3, none⟩ = shortTrace :=
  stackPrint_nilAnchor_identity shortTrace ⟨[], "panic(".toList, 3, none⟩
    (by decide!) (by decide!) (by decide!)


/-! ## The anchor -/

theorem lastMatch_some_of_drop (p : GoString → Bool) (fs : List GoString) (k : Nat)
    (f : GoString) (hk : fs[k]? = some f) (hp : p f = true)
    (hlast : ∀ g ∈ fs.drop (k + 1), p g = false) : lastMatch p fs = some k := by
  apply lastMatch_some p fs k f hk hp
  intro j g hj hg
  apply hlast g
  have h1 : (fs.drop (k + 1))[j - (k + 1)]? = some g := by
    rw [List.getElem?_drop]
    have : k + 1 + (j - (k + 1)) = j := by omega
    rw [this]; exact hg
  exact List.getElem?_mem h1

theorem anchorOf_congr (p q : GoString → Bool) (fs : List GoString)
    (h : ∀ f ∈ fs, q f = p f) : anchorOf q fs = anchorOf p fs := by
  unfold anchorOf
  rw [lastMatch_congr q p fs h]

/-- C3: with a non-empty FuncName and a Regexp, `calcAnchor` is the function-name anchor if
that is found and greater than the regexp anchor, otherwise the regexp anchor, both passes
taken over the same input; with an empty FuncName or no Regexp it is the single `isAnchor`
pass.  On the macOS trace with FuncName `panic(` and `PackageRegexp` the result is 12, where
the regexp pass alone gives 10. -/
theorem calcAnchor_dual_pass (r : GoString) (si : stackInfo) :
    (si.FuncName ≠ [] ∧ si.Regexp.isSome = true →
      calcAnchor r si =
        if calcWith r si.isFuncAnchor ≠ nilAnchor ∧
            calcWith r si.isFuncAnchor > calcWith r si.isAnchor
        then calcWith r si.isFuncAnchor else calcWith r si.isAnchor) ∧
    (si.FuncName = [] ∨ si.Regexp = none → calcAnchor r si = calcWith r si.isAnchor) ∧
    calcAnchor inputFromMac siPanic = 12 ∧
    calcWith inputFromMac siPanic.isAnchor = 10 ∧
    calcWith inputFromMac siPanic.isFuncAnchor = 12 := by
  refine ⟨?_, ?_, by decide!, by decide!, by decide!⟩
  · intro h
    rw [calcAnchor_eq, if_pos h]
  · intro h
    rw [calcAnchor_eq, if_neg]
    rintro ⟨h1, h2⟩
    rcases h with h | h
    · exact h1 h
    · rw [h] at h2; simp at h2

/-- Witness of C3 on the macOS trace: the function-name pass wins. -/
theorem calcAnchor_dual_pass_witness :
    calcAnchor inputFromMac siPanic =
      if calcWith inputFromMac siPanic.isFuncAnchor ≠ nilAnchor ∧
          calcWith inputFromMac siPanic.isFuncAnchor > calcWith inputFromMac siPanic.isAnchor
      then calcWith inputFromMac siPanic.isFuncAnchor
      else calcWith inputFromMac siPanic.isAnchor :=
  (calcAnchor_dual_pass inputFromMac siPanic).1 ⟨by decide, rfl⟩

theorem lastMatch_of_last (p : GoString → Bool) (fs : List GoString) (f : GoString)
    (hf : fs.getLast? = some f) (hp : p f = true) : lastMatch p fs = some (fs.length - 1) := by
  apply lastMatch_some p fs _ f _ hp
  · intro j g hj hg
    have := (List.getElem?_eq_some.1 hg).1
    omega
  · rw [← List.getLast?_eq_getElem?]; exact hf

theorem calcWith_last_matches (r : GoString) (p : GoString → Bool) (f : GoString)
    (hf : (frameLines r).getLast? = some f) (hp : p f = true) : calcWith r p = nilAnchor := by
  rw [calcWith_frames, anchorOf, lastMatch_of_last p _ f hf hp]
  have hne : (frameLines r).length ≠ 0 := by
    intro h0
    rw [List.length_eq_zero] at h0
    rw [h0] at hf; simp at hf
  have : ((((frameLines r).length - 1 : Nat) : Int) + 1 = (frameLines r).length) := by omega
  simp [this]

theorem calcWith_no_match (r : GoString) (p : GoString → Bool)
    (h : ∀ f ∈ frameLines r, p f = false) : calcWith r p = nilAnchor := by
  rw [calcWith_frames, anchorOf, lastMatch_none p _ h]

/-- C6: the value `A` returned by `calcAnchor` is `nilAnchor`, or `0 ≤ A < N` and even
`A ≤ N - 3` for the number `N` of lines scanned from the input (at most one per input byte):
`A` indexes an existing frame line that is not the final one. -/
theorem calcAnchor_in_bounds (r : GoString) (si : stackInfo) :
    calcAnchor r si = nilAnchor ∨
      (0 ≤ calcAnchor r si ∧ calcAnchor r si < (scanLines r).length ∧
        calcAnchor r si + 3 ≤ (scanLines r).length ∧ (scanLines r).length ≤ r.length ∧
        ∃ f, (frameLines r)[(calcAnchor r si).toNat]? = some f ∧
          (calcAnchor r si).toNat + 1 < (frameLines r).length) := by
  by_cases h : calcAnchor r si = nilAnchor
  · exact Or.inl h
  · right
    obtain ⟨h0, h1⟩ := calcAnchor_bound r si h
    have hlen : (frameLines r).length = (scanLines r).length - 1 := by
      unfold frameLines; simp
    have hidx : (calcAnchor r si).toNat < (frameLines r).length := by omega
    refine ⟨h0, by omega, by omega, scanLines_length_le r, (frameLines r)[(calcAnchor r si).toNat],
      ?_, by omega⟩
    exact List.getElem?_eq_getElem hidx

/-- C7: with a Regexp configured `isAnchor` is the regexp match, whatever the names are, so
a line that contains the function name but does not match the regexp is not an anchor; with
no Regexp `isAnchor` is `isFuncAnchor`. -/
theorem isAnchor_regexp_first (si : stackInfo) (s : GoString) :
    (∀ re, si.Regexp = some re →
      si.isAnchor s = re.MatchString s ∧
      (Contains s si.FuncName = true → re.MatchString s = false → si.isAnchor s = false)) ∧
    (si.Regexp = none → si.isAnchor s = si.isFuncAnchor s) := by
  constructor
  · intro re h
    have h1 : si.isAnchor s = re.MatchString s := by
      unfold stackInfo.isAnchor; rw [h]
    exact ⟨h1, fun _ h2 => h1.trans h2⟩
  · intro h
    unfold stackInfo.isAnchor; rw [h]

/-- Witness of C7: a line with the function name `printStackIf(` outside the package is a
function-name anchor but, with `PackageRegexp` configured, not an anchor. -/
theorem isAnchor_regexp_first_witness :
    stackInfo.isAnchor ⟨[], "printStackIf(".toList, 0, some PackageRegexp⟩
        "github.com/lainioxx/err2_printStackIf(0x0)".toList = false ∧
    stackInfo.isFuncAnchor ⟨[], "printStackIf(".toList, 0, some PackageRegexp⟩
        "github.com/lainioxx/err2_printStackIf(0x0)".toList = true ∧
    stackInfo.isAnchor ⟨[], "printStackIf(".toList, 0, none⟩
        "github.com/lainioxx/err2_printStackIf(0x0)".toList =
      stackInfo.isFuncAnchor ⟨[], "printStackIf(".toList, 0, none⟩
        "github.com/lainioxx/err2_printStackIf(0x0)".toList :=
  ⟨((isAnchor_regexp_first ⟨[], "printStackIf(".toList, 0, some PackageRegexp⟩
        "github.com/lainioxx/err2_printStackIf(0x0)".toList).1 PackageRegexp rfl).2
      (by decide!) (by decide!),
    by decide!,
    (isAnchor_regexp_first ⟨[], "printStackIf(".toList, 0, none⟩
        "github.com/lainioxx/err2_printStackIf(0x0)".toList).2 rfl⟩


/-! ## The empty criterion and the level -/

theorem calcWith_all (r : GoString) (p : GoString → Bool) (h : ∀ f ∈ frameLines r, p f = true) :
    calcWith r p = nilAnchor := by
  cases hl : (frameLines r).getLast? with
  | none =>
    rw [List.getLast?_eq_none_iff] at hl
    exact calcWith_no_match r p (by rw [hl]; simp)
  | some f =>
    exact calcWith_last_matches r p f hl (h f (List.mem_of_getLast?_eq_some hl))

/-- C8 (as stated) fails in its second part: the empty criterion yields `nilAnchor`, but a
newline-terminated trace whose lines end in a carriage return is not reproduced unchanged. -/
theorem empty_criterion_changes_cr_trace :
    calcAnchor crTrace ⟨[], [], 0, none⟩ = nilAnchor ∧
    NewlineTerminated crTrace ∧
    stackPrint crTrace ⟨[], [], 0, none⟩ = shortTrace ∧
    stackPrint crTrace ⟨[], [], 0, none⟩ ≠ crTrace := by
  decide!

/-- C8 (amended): for the empty criterion and any Level `calcAnchor` returns `nilAnchor` for
every input, and `stackPrint` reproduces unchanged every newline-terminated input whose lines
do not end in a carriage return and are shorter than the scanner's buffer. -/
theorem empty_criterion_identity (r : GoString) (lvl : Int) :
    calcAnchor r ⟨[], [], lvl, none⟩ = nilAnchor ∧
    (NewlineTerminated r → PlainLines r → stackPrint r ⟨[], [], lvl, none⟩ = r) := by
  have h : calcAnchor r ⟨[], [], lvl, none⟩ = nilAnchor := by
    rw [calcAnchor_eq, if_neg (by simp)]
    apply calcWith_all
    intro f _
    simp [stackInfo.isAnchor, stackInfo.isFuncAnchor]
  refine ⟨h, fun ht hp => ?_⟩
  obtain ⟨h1, _, h3⟩ := scan_plain r ht hp
  rw [stackPrint_nil r _ h, h1, h3]

/-- Witness of C8 (amended) at level 5. -/
theorem empty_criterion_identity_witness :
    calcAnchor shortTrace ⟨[], [], 5, none⟩ = nilAnchor ∧
    stackPrint shortTrace ⟨[], [], 5, none⟩ = shortTrace :=
  ⟨(empty_criterion_identity shortTrace 5).1,
    (empty_criterion_identity shortTrace 5).2 (by decide!) (by decide!)⟩

/-- C9 (as stated) fails: `shortTrace` has four frame lines and the criterion has level 2;
the anchor 0 is found, and the output is the caption alone. -/
theorem trimmed_trace_can_be_empty :
    1 ≤ (frameLines shortTrace).length ∧ stackInfo.Level ⟨[], "a(".toList, 2, none⟩ ≥ 0 ∧
    calcAnchor shortTrace ⟨[], "a(".toList, 2, none⟩ = 0 ∧ (0 : Int) ≠ nilAnchor ∧
    stackPrint shortTrace ⟨[], "a(".toList, 2, none⟩ = "goroutine 1 [running]:\n".toList ∧
    lineCount (stackPrint shortTrace ⟨[], "a(".toList, 2, none⟩) = 1 := by
  decide!

/-- C9 (amended): when an anchor `A` is found, the output of `stackPrint` contains a line
after the caption exactly when `2*si.Level + A` (the 64-bit value the code computes) is at
most the index of the last frame line; with level 0, on an input shorter than `2^63` bytes,
it contains the anchor line and at least one more line after the caption. -/
theorem stackPrint_nonempty_iff (r : GoString) (si : stackInfo)
    (hA : calcAnchor r si ≠ nilAnchor) :
    (2 ≤ lineCount (stackPrint r si) ↔
      int64 (2 * si.Level + calcAnchor r si) < (frameLines r).length) ∧
    (si.Level = 0 → r.length < 9223372036854775808 → 3 ≤ lineCount (stackPrint r si)) := by
  have hb := calcAnchor_bound r si hA
  rw [lineCount_stackPrint_found r si hA]
  constructor
  · omega
  · intro h0 hlen
    have h1 := scanLines_length_le r
    have h2 : (frameLines r).length ≤ (scanLines r).length := by
      unfold frameLines; simp
    have h3 : int64 (2 * si.Level + calcAnchor r si) = calcAnchor r si := by
      rw [h0]
      have e : 2 * (0 : Int) + calcAnchor r si = calcAnchor r si := by omega
      rw [e]
      apply int64_of_range <;> omega
    rw [h3]
    omega

/-- Witness of C9 (amended): level 1 on `shortTrace` keeps the second frame; level 0 keeps
all four frame lines. -/
theorem stackPrint_nonempty_iff_witness :
    (2 ≤ lineCount (stackPrint shortTrace ⟨[], "a(".toList, 1, none⟩) ↔
      int64 (2 * 1 + calcAnchor shortTrace ⟨[], "a(".toList, 1, none⟩) <
        (frameLines shortTrace).length) ∧
    3 ≤ lineCount (stackPrint shortTrace ⟨[], "a(".toList, 0, none⟩) :=
  ⟨(stackPrint_nonempty_iff shortTrace ⟨[], "a(".toList, 1, none⟩ (by decide!)).1,
    (stackPrint_nonempty_iff shortTrace ⟨[], "a(".toList, 0, none⟩ (by decide!)).2 rfl
      (by decide!)⟩

/-- C10 (as stated) fails on the cases `medium` and `medium level 2` of
`TestStackPrint_limit`: the anchor is frame line 8; level 2 prints `output12`, which no longer
has the anchor line and is shorter than `output1`, printed at level 0. -/
theorem larger_level_shortens_output :
    calcAnchor input1 ⟨"err2".toList, "Returnw(".toList, 2, none⟩ = 8 ∧
    stackPrint input1 ⟨"err2".toList, "Returnw(".toList, 0, none⟩ = output1 ∧
    stackPrint input1 ⟨"err2".toList, "Returnw(".toList, 2, none⟩ = output12 ∧
    output12.length < output1.length ∧
    Contains output12 "err2.Returnw(".toList = false ∧
    ¬ KeepsContext input1 ⟨"err2".toList, "Returnw(".toList, 2, none⟩ := by
  refine ⟨by decide!, by decide!, by decide!, by decide!, by decide!, ?_⟩
  intro h
  have h1 := h "goroutine 1 [running]:".toList (by decide!)
  revert h1
  decide!

theorem calcAnchor_level (r pn fn : GoString) (re : Option Regexp) (l1 l2 : Int) :
    calcAnchor r ⟨pn, fn, l1, re⟩ = calcAnchor r ⟨pn, fn, l2, re⟩ := rfl

theorem joinLines_drop_le (fs : List GoString) (n : Nat) :
    (joinLines (fs.drop n)).length ≤ (joinLines fs).length := by
  induction fs generalizing n with
  | nil => simp
  | cons f fs ih =>
    cases n with
    | zero => simp
    | succ n =>
      rw [List.drop_succ_cons, joinLines_cons]
      have := ih n
      simp only [List.length_append, List.length_cons]
      omega

theorem joinLines_drop_mono (fs : List GoString) (n1 n2 : Nat) (h : n1 ≤ n2) :
    (joinLines (fs.drop n2)).length ≤ (joinLines (fs.drop n1)).length := by
  have e : fs.drop n2 = (fs.drop n1).drop (n2 - n1) := by
    rw [List.drop_drop]; congr 1; omega
  rw [e]
  exact joinLines_drop_le _ _

/-- C10 (amended): the level counts the frame-pairs dropped from the anchor on.  For a found
anchor `A` and levels `0 ≤ L1 ≤ L2` with `2*L2 + A < 2^63`, the anchor does not depend on the
level, the output at level `L2` is the caption followed by the frame lines of index at least
`A + 2*L2`, and it is never longer than the output at level `L1`. -/
theorem larger_level_never_longer (r pn fn : GoString) (re : Option Regexp) (l1 l2 : Int)
    (h0 : 0 ≤ l1) (h12 : l1 ≤ l2)
    (hov : 2 * l2 + calcAnchor r ⟨pn, fn, l2, re⟩ < 9223372036854775808)
    (hA : calcAnchor r ⟨pn, fn, l2, re⟩ ≠ nilAnchor) :
    calcAnchor r ⟨pn, fn, l1, re⟩ = calcAnchor r ⟨pn, fn, l2, re⟩ ∧
    (∃ c, scanLines r = c :: frameLines r ∧
      stackPrint r ⟨pn, fn, l2, re⟩ =
        joinLines (c :: (frameLines r).drop (calcAnchor r ⟨pn, fn, l2, re⟩ + 2 * l2).toNat)) ∧
    (stackPrint r ⟨pn, fn, l2, re⟩).length ≤ (stackPrint r ⟨pn, fn, l1, re⟩).length := by
  have hl := calcAnchor_level r pn fn re l1 l2
  have hA1 : calcAnchor r ⟨pn, fn, l1, re⟩ ≠ nilAnchor := by rw [hl]; exact hA
  have hb := calcAnchor_bound r _ hA
  obtain ⟨c2, hc2, hout2⟩ := stackPrint_found r _ hA
  obtain ⟨c1, hc1, hout1⟩ := stackPrint_found r _ hA1
  have e2 : int64 (2 * l2 + calcAnchor r ⟨pn, fn, l2, re⟩) =
      calcAnchor r ⟨pn, fn, l2, re⟩ + 2 * l2 := by
    rw [int64_of_range] <;> omega
  have e1 : int64 (2 * l1 + calcAnchor r ⟨pn, fn, l2, re⟩) =
      calcAnchor r ⟨pn, fn, l2, re⟩ + 2 * l1 := by
    rw [int64_of_range] <;> omega
  simp only [hl] at hout1
  simp only [e2] at hout2
  simp only [e1] at hout1
  refine ⟨hl, ⟨c2, hc2, hout2⟩, ?_⟩
  have hcc : c1 = c2 := by
    have := hc1.symm.trans hc2
    simpa using this
  rw [hout1, hout2, hcc, joinLines_cons, joinLines_cons]
  simp only [List.length_append, List.length_cons, add_le_add_iff_left, Nat.succ_le_succ_iff,
    Nat.add_le_add_iff_right]
  apply joinLines_drop_mono
  omega

/-- Witness of C10 (amended): the cases `medium` and `medium level 2` of
`TestStackPrint_limit`. -/
theorem larger_level_never_longer_witness :
    calcAnchor input1 ⟨"err2".toList, "Returnw(".toList, 0, none⟩ =
      calcAnchor input1 ⟨"err2".toList, "Returnw(".toList, 2, none⟩ ∧
    (∃ c, scanLines input1 = c :: frameLines input1 ∧
      stackPrint input1 ⟨"err2".toList, "Returnw(".toList, 2, none⟩ =
        joinLines (c :: (frameLines input1).drop
          (calcAnchor input1 ⟨"err2".toList, "Returnw(".toList, 2, none⟩ + 2 * 2).toNat)) ∧
    (stackPrint input1 ⟨"err2".toList, "Returnw(".toList, 2, none⟩).length ≤
      (stackPrint input1 ⟨"err2".toList, "Returnw(".toList, 0, none⟩).length :=
  larger_level_never_longer input1 "err2".toList "Returnw(".toList none 0 2
    (by decide) (by decide) (by decide!) (by decide!)

/-! ## Printing a captured stack -/

theorem calcAnchor_empty_names (r : GoString) (lvl : Int) :
    calcAnchor r { PackageName := [], FuncName := [], Level := lvl, Regexp := none } =
      nilAnchor := by
  rw [calcAnchor_eq, if_neg (by simp)]
  apply calcWith_all
  intro f _
  simp [stackInfo.isAnchor, stackInfo.isFuncAnchor]

/-- C11 (the code does not do it): `PrintStack(stackLevel)` builds the criterion with empty
names and no regexp, for which `calcAnchor` returns `nilAnchor` and not zero; it therefore
writes every scanned line of the captured trace, whatever the level.  With `stackLevel = 1` on
`shortTrace`, a trace of two frames, the output is the whole trace: no frame pair is omitted
and the output is not shorter. -/
theorem PrintStack_ignores_stackLevel :
    (∀ (stack : GoString) (stackLevel : Int),
      PrintStack stack stackLevel = joinLines (scanLines stack)) ∧
    PrintStack shortTrace 1 = shortTrace ∧
    (PrintStack shortTrace 1).length = shortTrace.length := by
  have h : ∀ (stack : GoString) (stackLevel : Int),
      PrintStack stack stackLevel = joinLines (scanLines stack) := by
    intro stack stackLevel
    unfold PrintStack FprintStack
    rw [stackPrint_nil _ _ (calcAnchor_empty_names stack stackLevel)]
    simp
  have h1 : PrintStack shortTrace 1 = shortTrace := by
    rw [h]; decide!
  exact ⟨h, h1, by rw [h1]⟩

/-- C12: `PrintError` and `PrintPanic` append to the writer `"---\n"`, the value as `%v`
formats it and `"\n---\n"`, and then what `stackPrint` writes for the captured stack, with the
criterion `{no names, PackageRegexp, Level 1}` for `PrintError` and
`{FuncName "panic(", PackageRegexp, Level 1}` for `PrintPanic`. -/
theorem PrintError_PrintPanic_output (stack w v : GoString) :
    PrintError stack w v =
      w ++ ("---\n".toList ++ v ++ "\n---\n".toList) ++
        stackPrint stack
          { PackageName := [], FuncName := [], Level := 1, Regexp := some PackageRegexp } ∧
    PrintPanic stack w v =
      w ++ ("---\n".toList ++ v ++ "\n---\n".toList) ++
        stackPrint stack
          { PackageName := [], FuncName := "panic(".toList, Level := 1,
            Regexp := some PackageRegexp } := by
  constructor
  · simp [PrintError, printStack, FprintStack, stackPrologueError, newErrSI,
      List.append_assoc]
  · simp [PrintPanic, printStack, FprintStack, stackProloguePanic, newSI, List.append_assoc]

end stackprint

namespace err3

open stackprint (GoString)

/-! ## Checks -/

/-- C13: with a nil error `try.Check1`, `try.Check2` and `try.Check3` return the accompanying
values unchanged and `try.Check(nil)` returns normally: no unwind is raised and the activation
is left as it was. -/
theorem check_fast_path {α β γ : Type} (v1 : α) (v2 : β) (v3 : γ) (s : Scope) :
    Check none s = (.normal (), s) ∧
    Check1 v1 none s = (.normal v1, s) ∧
    Check2 v1 v2 none s = (.normal (v1, v2), s) ∧
    Check3 v1 v2 v3 none s = (.normal (v1, v2, v3), s) :=
  ⟨rfl, rfl, rfl, rfl⟩

/-- C14: for a non-nil error `e` every check ends in one unwind that carries `e` itself; no
statement `k` after the check runs; and under a deferred `err3.Handle(&err, nil)` the call
returns normally with `err` equal to `e`, none of the later statements having run. -/
theorem check_single_raise {α β γ δ : Type} (e : GoError) (v1 : α) (v2 : β) (v3 : γ)
    (s : Scope) (k : Body δ) (log : List Event) :
    Check (some e) s = (.unwind (.error e), s) ∧
    Check1 v1 (some e) s = (.unwind (.error e), s) ∧
    Check2 v1 v2 (some e) s = (.unwind (.error e), s) ∧
    Check3 v1 v2 v3 (some e) s = (.unwind (.error e), s) ∧
    ((Check (some e)).bind fun _ => k) s = (.unwind (.error e), s) ∧
    ((Check1 v1 (some e)).bind fun _ => k) s = (.unwind (.error e), s) ∧
    ((Check2 v1 v2 (some e)).bind fun _ => k) s = (.unwind (.error e), s) ∧
    ((Check3 v1 v2 v3 (some e)).bind fun _ => k) s = (.unwind (.error e), s) ∧
    call ((Defer .Handle).bind fun _ => (Check1 v1 (some e)).bind fun _ => k) log =
      { panicked := none, value := none, err := some e, log := log } :=
  ⟨rfl, rfl, rfl, rfl, rfl, rfl, rfl, rfl, rfl⟩

/-! ## Registrations -/

/-- C15: a function with a single deferred `err3.Handlef(&err, format, args...)` whose body
raises `e` through a check returns normally, with an error whose message is
`Sprintf(format, args...) + ": " + e.Error()`; so `wrap: boom` and the outputs of
`ExampleHandlef` and `ExampleHandlef_format_args`. -/
theorem handlef_annotates {α δ : Type} (e : GoError) (format : GoString) (args : List Arg)
    (v : α) (k : α → Body δ) (log : List Event) :
    (call ((Defer (.Handlef format args)).bind fun _ => (Check1 v (some e)).bind k) log).panicked
      = none ∧
    (call ((Defer (.Handlef format args)).bind fun _ => (Check1 v (some e)).bind k) log).err.map
        GoError.Error = some (Sprintf format args ++ ": ".toList ++ e.Error) ∧
    (call ((Defer (.Handlef "wrap".toList [])).bind fun _ =>
        (Check1 ([] : GoString) (some (.new "boom".toList))).bind fun _ => ReturnErr) []).err.map
        GoError.Error = some "wrap: boom".toList ∧
    (call annotatedHandlef []).err.map GoError.Error =
      some "annotated: this is an ERROR".toList ∧
    (call annotatedFormatArgs []).err.map GoError.Error =
      some "annotated: err3: this is an ERROR".toList :=
  ⟨rfl, rfl, by decide!, by decide!, by decide!⟩

/-- C16: registrations installed in the order A, B, C around a raise of an error with message
`m` report `A: B: C: m`, when they are deferred in one function as well as when each is
deferred in its own function, the inner one called and checked by the outer one; and
`ExampleHandlef_deferStack` reports `3rd: 2nd: 1st: this is an ERROR`. -/
theorem handlef_chain_order {δ : Type} (e : GoError) (fa fb fc : GoString)
    (aa ab ac : List Arg) (k : Body δ) (log : List Event) :
    (call ((Defer (.Handlef fa aa)).bind fun _ => (Defer (.Handlef fb ab)).bind fun _ =>
        (Defer (.Handlef fc ac)).bind fun _ => (Check (some e)).bind fun _ => k) log).err.map
        GoError.Error =
      some (Sprintf fa aa ++ ": ".toList ++ (Sprintf fb ab ++ ": ".toList ++
        (Sprintf fc ac ++ ": ".toList ++ e.Error))) ∧
    (call ((Defer (.Handlef fa aa)).bind fun _ => (Defer (.Handlef fb ab)).bind fun _ =>
        (Defer (.Handlef fc ac)).bind fun _ => (Check (some e)).bind fun _ => k) log).panicked
      = none ∧
    (call ((Defer (.Handlef fa aa)).bind fun _ =>
        (Call ((Defer (.Handlef fb ab)).bind fun _ =>
          (Call ((Defer (.Handlef fc ac)).bind fun _ => Check (some e))).bind fun y =>
            Check y)).bind fun x => Check x) log).err.map GoError.Error =
      some (Sprintf fa aa ++ ": ".toList ++ (Sprintf fb ab ++ ": ".toList ++
        (Sprintf fc ac ++ ": ".toList ++ e.Error))) ∧
    (call annotatedDeferStack []).err.map GoError.Error =
      some "3rd: 2nd: 1st: this is an ERROR".toList := by
  refine ⟨?_, rfl, ?_, by decide!⟩
  · simp [call, Body.bind, Defer, Check, runDeferred, Registration.fire, classify, annotate,
      GoError.Error]
  · simp [call, Call, Body.bind, Defer, Check, runDeferred, Registration.fire, classify,
      annotate, GoError.Error]

/-- C17: for a payload that is not a signaled error a deferred `err3.Handle(&err, nil)` leaves
the exit state as it is, the unwind in flight with the same payload, and the call ends in an
unwind with that payload. -/
theorem handle_foreign_passthrough (p : Payload) (hp : classify p = .Foreign p) :
    (∀ (err : Option GoError) (log : List Event),
      Registration.Handle.fire { status := .Unwinding p, err := err, log := log } =
        { status := .Unwinding p, err := err, log := log }) ∧
    (∀ log : List Event,
      call ((Defer .Handle).bind fun _ => (Panic p : Body Unit)) log =
        { panicked := some p, value := none, err := none, log := log }) := by
  constructor
  · intro err log
    simp [Registration.fire, hp]
  · intro log
    simp [call, Body.bind, Defer, Panic, runDeferred, Registration.fire, hp]

/-- Witness of C17: the string panic and the runtime fault of `TestPanickingCarryOn_Handle`
and `TestPanicking_Return`. -/
theorem handle_foreign_passthrough_witness :
    call ((Defer .Handle).bind fun _ => (Panic (.value "panic".toList) : Body Unit)) [] =
      { panicked := some (.value "panic".toList), value := none, err := none, log := [] } ∧
    call ((Defer .Handle).bind fun _ =>
        (Panic (.runtimeError (.new "index out of range [0] with length 0".toList)) :
          Body Unit)) [] =
      { panicked := some (.runtimeError (.new "index out of range [0] with length 0".toList)),
        value := none, err := none, log := [] } :=
  ⟨(handle_foreign_passthrough (.value "panic".toList) rfl).2 [],
    (handle_foreign_passthrough
      (.runtimeError (.new "index out of range [0] with length 0".toList)) rfl).2 []⟩

/-- C18: a deferred `err3.CatchAll(errorHandler, panicHandler)` terminates every unwind: for a
signaled error it invokes the error callback with the error, for any other payload the panic
callback with the raw payload, and the call returns normally. -/
theorem catchAll_terminates {α δ : Type} (e : GoError) (v : α) (k : Body δ)
    (log : List Event) :
    call ((Defer .CatchAll).bind fun _ => (Check1 v (some e)).bind fun _ => k) log =
      { panicked := none, value := none, err := none, log := log ++ [.errorHandler e] } ∧
    call ((Defer .CatchAll).bind fun _ => (Panic (.error e) : Body Unit)) log =
      { panicked := none, value := none, err := none, log := log ++ [.errorHandler e] } ∧
    (∀ s : GoString,
      call ((Defer .CatchAll).bind fun _ => (Panic (.value s) : Body Unit)) log =
        { panicked := none, value := none, err := none,
          log := log ++ [.panicHandler (.value s)] }) ∧
    (∀ f : GoError,
      call ((Defer .CatchAll).bind fun _ => (Panic (.runtimeError f) : Body Unit)) log =
        { panicked := none, value := none, err := none,
          log := log ++ [.panicHandler (.runtimeError f)] }) :=
  ⟨rfl, rfl, fun _ => rfl, fun _ => rfl⟩

/-- C19: a deferred `err3.CatchError(handler)` terminates a signaled unwind, the handler
receiving the error and the code after the check not running, and re-raises every other
payload unchanged. -/
theorem catchError_signaled_only {α δ : Type} (e : GoError) (v : α) (k : Body δ)
    (log : List Event) :
    call ((Defer .CatchError).bind fun _ => (Check1 v (some e)).bind fun _ => k) log =
      { panicked := none, value := none, err := none, log := log ++ [.errorHandler e] } ∧
    (∀ s : GoString,
      call ((Defer .CatchError).bind fun _ => (Panic (.value s) : Body Unit)) log =
        { panicked := some (.value s), value := none, err := none, log := log }) ∧
    (∀ f : GoError,
      call ((Defer .CatchError).bind fun _ => (Panic (.runtimeError f) : Body Unit)) log =
        { panicked := some (.runtimeError f), value := none, err := none, log := log }) :=
  ⟨rfl, fun _ => rfl, fun _ => rfl⟩

/-- C20: a payload is Signaled iff it is an error value that is not a runtime error; a string
payload and a runtime fault are Foreign; and the error raised by `panic(fmt.Errorf(...))` in
the recursion of `ExampleHandlef_panic` is intercepted and annotated by `Handlef`:
`annotated: err3: helper failed at: 78`. -/
theorem classify_signaled_iff (p : Payload) :
    ((∃ e, classify p = .Signaled e) ↔ ∃ e, p = .error e) ∧
    (∀ e, classify (.error e) = .Signaled e) ∧
    (∀ v, classify (.value v) = .Foreign (.value v)) ∧
    (∀ e, classify (.runtimeError e) = .Foreign (.runtimeError e)) ∧
    (call annotatedPanic []).panicked = none ∧
    (call annotatedPanic []).err.map GoError.Error =
      some "annotated: err3: helper failed at: 78".toList := by
  refine ⟨?_, fun _ => rfl, fun _ => rfl, fun _ => rfl, by decide!, by decide!⟩
  cases p <;> simp [classify]

end err3

namespace stackprint

/-! ## Names and the package pattern -/

theorem Contains_iff_infix (s sub : GoString) : Contains s sub = true ↔ sub <:+: s := by
  induction s with
  | nil =>
    rw [Contains, List.infix_nil]
    cases sub <;> simp
  | cons c cs ih =>
    rw [Contains, Bool.or_eq_true, ih, List.infix_cons_iff, List.isPrefixOf_iff_prefix]

/-- C26: `fullName` is `p ++ "." ++ f` when both names are non-empty and `p ++ f` otherwise;
`isFuncAnchor` is true on every line when both names are empty and otherwise true exactly on
the lines that contain `fullName` as a substring; `{"err2", "Return("}` does not match a
`err2.Returnw(` line. -/
theorem fullName_isFuncAnchor_spec (p f : GoString) (lvl : Int) (re : Option Regexp)
    (s : GoString) :
    (p ≠ [] → f ≠ [] → stackInfo.fullName ⟨p, f, lvl, re⟩ = p ++ ".".toList ++ f) ∧
    (p = [] ∨ f = [] → stackInfo.fullName ⟨p, f, lvl, re⟩ = p ++ f) ∧
    (p = [] → f = [] → stackInfo.isFuncAnchor ⟨p, f, lvl, re⟩ s = true) ∧
    (¬ (p = [] ∧ f = []) →
      (stackInfo.isFuncAnchor ⟨p, f, lvl, re⟩ s = true ↔
        stackInfo.fullName ⟨p, f, lvl, re⟩ <:+: s)) ∧
    stackInfo.isFuncAnchor ⟨"err2".toList, "Return(".toList, 0, none⟩
      "github.com/lainio/err2.Returnw(0x40000b3e60)".toList = false := by
  refine ⟨?_, ?_, ?_, ?_, by decide!⟩
  · intro hp hf
    simp [stackInfo.fullName, hp, hf]
  · intro h
    rcases h with h | h <;> simp [stackInfo.fullName, h]
  · intro hp hf
    simp [stackInfo.isFuncAnchor, hp, hf]
  · intro h
    rw [← Contains_iff_infix]
    simp only [stackInfo.isFuncAnchor]
    rw [if_neg h]

/-- Witness of C26: the cases of `TestFullName` and two cases of `TestIsFuncAnchor`. -/
theorem fullName_isFuncAnchor_spec_witness :
    stackInfo.fullName ⟨"lainio/err2".toList, "try".toList, 0, none⟩ =
      "lainio/err2".toList ++ ".".toList ++ "try".toList ∧
    stackInfo.fullName ⟨"lainio/err2".toList, [], 0, none⟩ = "lainio/err2".toList ++ [] ∧
    stackInfo.fullName ⟨[], "try".toList, 0, none⟩ = [] ++ "try".toList ∧
    stackInfo.isFuncAnchor ⟨[], [], 0, none⟩ "github.com/lainio/err2.printStackIf()".toList =
      true ∧
    (stackInfo.isFuncAnchor ⟨"err2".toList, "Returnw".toList, 0, none⟩
        "github.com/lainio/err2.Returnw(0x40000b3e60)".toList = true ↔
      stackInfo.fullName ⟨"err2".toList, "Returnw".toList, 0, none⟩ <:+:
        "github.com/lainio/err2.Returnw(0x40000b3e60)".toList) :=
  ⟨(fullName_isFuncAnchor_spec "lainio/err2".toList "try".toList 0 none []).1
      (by decide) (by decide),
    (fullName_isFuncAnchor_spec "lainio/err2".toList [] 0 none []).2.1 (Or.inr rfl),
    (fullName_isFuncAnchor_spec [] "try".toList 0 none []).2.1 (Or.inl rfl),
    (fullName_isFuncAnchor_spec [] [] 0 none
      "github.com/lainio/err2.printStackIf()".toList).2.2.1 rfl rfl,
    (fullName_isFuncAnchor_spec "err2".toList "Returnw".toList 0 none
      "github.com/lainio/err2.Returnw(0x40000b3e60)".toList).2.2.2.1 (by decide)⟩

theorem search_append (p : Pattern) (pre w : GoString)
    (h : p.matchHere w (fun _ => true) = true) : p.search (pre ++ w) = true := by
  induction pre with
  | nil =>
    cases w with
    | nil => simpa [Pattern.search] using h
    | cons c cs => simp [Pattern.search, h]
  | cons c cs ih => simp [Pattern.search, ih]

theorem matchHere_lit_append (t rest : GoString) (k : GoString → Bool) :
    (Pattern.lit t).matchHere (t ++ rest) k = k rest := by
  simp [Pattern.matchHere, List.drop_left]

theorem starThen_append (cls : Char → Bool) (k : GoString → Bool) (mid rest : GoString)
    (hmid : ∀ c ∈ mid, cls c = true) (hk : k rest = true) :
    starThen cls k (mid ++ rest) = true := by
  induction mid with
  | nil =>
    cases rest with
    | nil => simpa [starThen] using hk
    | cons c cs => simp [starThen, hk]
  | cons c cs ih =>
    simp [starThen, hmid c (List.mem_cons_self _ _),
      ih (fun x hx => hmid x (List.mem_cons_of_mem _ hx))]

theorem matchHere_suffix (p : Pattern) :
    ∀ (s : GoString) (k : GoString → Bool), p.matchHere s k = true →
      ∃ s1, s1 <:+ s ∧ k s1 = true := by
  induction p with
  | lit t =>
    intro s k h
    simp only [Pattern.matchHere, Bool.and_eq_true] at h
    exact ⟨_, List.drop_suffix _ _, h.2⟩
  | alt a b iha ihb =>
    intro s k h
    simp only [Pattern.matchHere, Bool.or_eq_true] at h
    rcases h with h | h
    · exact iha s k h
    · exact ihb s k h
  | seq a b iha ihb =>
    intro s k h
    simp only [Pattern.matchHere] at h
    obtain ⟨s1, h1, hk1⟩ := iha s _ h
    obtain ⟨s2, h2, hk2⟩ := ihb s1 k hk1
    exact ⟨s2, h2.trans h1, hk2⟩
  | starClass cls =>
    intro s k h
    simp only [Pattern.matchHere] at h
    induction s with
    | nil => exact ⟨[], List.suffix_refl _, by simpa [starThen] using h⟩
    | cons c cs ih =>
      simp only [starThen, Bool.or_eq_true, Bool.and_eq_true] at h
      rcases h with h | h
      · exact ⟨_, List.suffix_refl _, h⟩
      · obtain ⟨s1, h1, hk1⟩ := ih h.2
        exact ⟨s1, h1.trans (List.suffix_cons _ _), hk1⟩

theorem matchHere_seq_suffix (a b : Pattern) (s : GoString) (k : GoString → Bool)
    (h : (Pattern.seq a b).matchHere s k = true) :
    ∃ s1, s1 <:+ s ∧ b.matchHere s1 k = true := by
  simp only [Pattern.matchHere] at h
  exact matchHere_suffix a s _ h

theorem packagePattern_paren (s : GoString) (k : GoString → Bool)
    (h : packagePattern.matchHere s k = true) : '(' ∈ s := by
  unfold packagePattern at h
  obtain ⟨s1, h1, hk1⟩ := matchHere_seq_suffix _ _ s k h
  obtain ⟨s2, h2, hk2⟩ := matchHere_seq_suffix _ _ s1 k hk1
  obtain ⟨s3, h3, hk3⟩ := matchHere_seq_suffix _ _ s2 k hk2
  obtain ⟨s4, h4, hk4⟩ := matchHere_seq_suffix _ _ s3 k hk3
  simp only [Pattern.matchHere, Bool.and_eq_true, List.isPrefixOf_iff_prefix] at hk4
  have hm : '(' ∈ s4 := hk4.1.subset (by decide)
  exact (((h4.trans h3).trans h2).trans h1).mem hm

theorem packagePattern_search_paren (s : GoString) (h : packagePattern.search s = true) :
    '(' ∈ s := by
  induction s with
  | nil => exact packagePattern_paren [] _ h
  | cons c cs ih =>
    simp only [Pattern.search, Bool.or_eq_true] at h
    rcases h with h | h
    · exact packagePattern_paren _ _ h
    · exact List.mem_cons_of_mem _ (ih h)

theorem packagePattern_matchHere (org pkg mid post : GoString)
    (horg : org = "lainio".toList ∨ org = "gregwebs".toList)
    (hpkg : pkg = "err2".toList ∨ pkg = "err3".toList ∨ pkg = "try".toList)
    (hmid : ∀ c ∈ mid, packageClass c = true) :
    packagePattern.matchHere (org ++ ("/".toList ++ (pkg ++ (mid ++ ("(".toList ++ post)))))
      (fun _ => true) = true := by
  have htail : ∀ k : GoString → Bool, k = (fun _ => true) →
      (Pattern.seq (.starClass packageClass) (.lit "(".toList)).matchHere
        (mid ++ ("(".toList ++ post)) k = true := by
    intro k hk
    simp only [Pattern.matchHere]
    apply starThen_append _ _ _ _ hmid
    have := matchHere_lit_append "(".toList post k
    simp only [Pattern.matchHere] at this
    rw [this, hk]
  have hpk : (Pattern.seq (.alt (.seq (.lit "err".toList) (.alt (.lit "2".toList)
        (.lit "3".toList))) (.lit "try".toList))
        (.seq (.starClass packageClass) (.lit "(".toList))).matchHere
        (pkg ++ (mid ++ ("(".toList ++ post))) (fun _ => true) = true := by
    have e2 : "err2".toList = "err".toList ++ ("2".toList ++ []) := by decide
    have e3 : "err3".toList = "err".toList ++ ("3".toList ++ []) := by decide
    rw [Pattern.matchHere, Pattern.matchHere]
    rcases hpkg with h | h | h
    · rw [h, e2, Bool.or_eq_true]
      left
      rw [Pattern.matchHere, List.append_assoc, matchHere_lit_append, Pattern.matchHere,
        Bool.or_eq_true]
      left
      rw [List.append_assoc, matchHere_lit_append, List.nil_append]
      exact htail _ rfl
    · rw [h, e3, Bool.or_eq_true]
      left
      rw [Pattern.matchHere, List.append_assoc, matchHere_lit_append, Pattern.matchHere,
        Bool.or_eq_true]
      right
      rw [List.append_assoc, matchHere_lit_append, List.nil_append]
      exact htail _ rfl
    · rw [h, Bool.or_eq_true]
      right
      rw [matchHere_lit_append]
      exact htail _ rfl
  unfold packagePattern
  rw [Pattern.matchHere, Pattern.matchHere]
  have hrest : (Pattern.seq (.lit "/".toList)
      (.seq (.alt (.seq (.lit "err".toList) (.alt (.lit "2".toList) (.lit "3".toList)))
        (.lit "try".toList))
        (.seq (.starClass packageClass) (.lit "(".toList)))).matchHere
      ("/".toList ++ (pkg ++ (mid ++ ("(".toList ++ post)))) (fun _ => true) = true := by
    rw [Pattern.matchHere, matchHere_lit_append]
    exact hpk
  rcases horg with h | h
  · rw [h, Bool.or_eq_true]
    left
    rw [matchHere_lit_append]
    exact hrest
  · rw [h, Bool.or_eq_true]
    right
    rw [matchHere_lit_append]
    exact hrest

/-- C27: `PackageRegexp` matches every line that contains `lainio/` or `gregwebs/` followed by
`err2`, `err3` or `try`, then any number of characters of the class `[a-zA-Z0-9_/.\[\]]`, then
`(`, so `isAnchor` with `PackageRegexp` is true on it; and it is false on every line without
`(`. -/
theorem PackageRegexp_call_lines (pn fn : GoString) (lvl : Int) :
    (∀ pre org pkg mid post : GoString,
      (org = "lainio".toList ∨ org = "gregwebs".toList) →
      (pkg = "err2".toList ∨ pkg = "err3".toList ∨ pkg = "try".toList) →
      (∀ c ∈ mid, packageClass c = true) →
      stackInfo.isAnchor ⟨pn, fn, lvl, some PackageRegexp⟩
        (pre ++ org ++ "/".toList ++ pkg ++ mid ++ "(".toList ++ post) = true) ∧
    (∀ s : GoString, '(' ∉ s →
      stackInfo.isAnchor ⟨pn, fn, lvl, some PackageRegexp⟩ s = false) := by
  constructor
  · intro pre org pkg mid post horg hpkg hmid
    show packagePattern.search _ = true
    simp only [List.append_assoc]
    exact search_append _ _ _ (packagePattern_matchHere org pkg mid post horg hpkg hmid)
  · intro s hs
    show packagePattern.search s = false
    rw [Bool.eq_false_iff]
    exact fun h => hs (packagePattern_search_paren s h)

/-- Witness of C27: the two lines of the comment on `PackageRegexp`, and a source-location
line. -/
theorem PackageRegexp_call_lines_witness :
    stackInfo.isAnchor ⟨[], [], 0, some PackageRegexp⟩
      ("github.com/".toList ++ "lainio".toList ++ "/".toList ++ "err2".toList ++
        "/try.To1[...]".toList ++ "(".toList ++ "...)".toList) = true ∧
    stackInfo.isAnchor ⟨[], [], 0, some PackageRegexp⟩
      ("github.com/".toList ++ "lainio".toList ++ "/".toList ++ "err2".toList ++
        "/assert.Asserter.True".toList ++ "(".toList ++ "...)".toList) = true ∧
    stackInfo.isAnchor ⟨[], [], 0, some PackageRegexp⟩
      "\t/home/god/go/src/github.com/lainio/err2/try/try.go:50".toList = false :=
  ⟨(PackageRegexp_call_lines [] [] 0).1 _ _ _ _ _ (Or.inl rfl) (Or.inl rfl) (by decide),
    (PackageRegexp_call_lines [] [] 0).1 _ _ _ _ _ (Or.inl rfl) (Or.inl rfl) (by decide),
    (PackageRegexp_call_lines [] [] 0).2 _ (by decide)⟩

/-! ## The dual pass without a regexp anchor -/

/-- C29: in dual-pass mode, on an input of fewer than 65537 lines on which the regexp pass
finds no anchor, `calcAnchor` returns `nilAnchor` whatever the function-name pass finds, and
`stackPrint` writes every line of the trace. -/
theorem dual_pass_needs_regexp_anchor (r : GoString) (si : stackInfo)
    (hdual : si.FuncName ≠ [] ∧ si.Regexp.isSome = true)
    (hlen : (scanLines r).length < 65537)
    (hre : calcWith r si.isAnchor = nilAnchor) :
    calcAnchor r si = nilAnchor ∧ stackPrint r si = joinLines (scanLines r) := by
  have h : calcAnchor r si = nilAnchor := by
    rw [calcAnchor_eq, if_pos hdual, hre]
    rw [if_neg]
    rintro ⟨h1, h2⟩
    have hb := calcWith_bound r _ h1
    have hl : (frameLines r).length ≤ (scanLines r).length := by
      unfold frameLines; simp
    unfold nilAnchor at h2
    omega
  exact ⟨h, stackPrint_nil r si h⟩

/-- Witness of C29: the criterion of `PrintPanic` on a trace with a `panic(` frame and no
frame of the package; the function-name pass finds frame 0. -/
theorem dual_pass_needs_regexp_anchor_witness :
    calcWith panicOnlyTrace siPanic.isFuncAnchor = 0 ∧
    calcAnchor panicOnlyTrace siPanic = nilAnchor ∧
    stackPrint panicOnlyTrace siPanic = joinLines (scanLines panicOnlyTrace) ∧
    stackPrint panicOnlyTrace siPanic = panicOnlyTrace :=
  ⟨by decide!,
    (dual_pass_needs_regexp_anchor panicOnlyTrace siPanic ⟨by decide, rfl⟩
      (by decide!) (by decide!)).1,
    (dual_pass_needs_regexp_anchor panicOnlyTrace siPanic ⟨by decide, rfl⟩
      (by decide!) (by decide!)).2,
    by decide!⟩

/-! ## Trimming twice -/

theorem calcAnchor_frames (r : GoString) (si : stackInfo) :
    calcAnchor r si = anchorOfFrames si (frameLines r) := by
  rw [calcAnchor_eq, anchorOfFrames, calcWith_frames, calcWith_frames]

theorem stackPrint_trimmedLines (r : GoString) (si : stackInfo) :
    stackPrint r si = joinLines (trimmedLines si (scanLines r)) := by
  rw [stackPrint_eq, calcAnchor_frames]
  unfold frameLines
  cases scanLines r with
  | nil => simp [trimmedLines, joinLines]
  | cons c fs => simp only [List.tail_cons, trimmedLines]; split <;> rfl

theorem dropCR_length_le (l : GoString) : (dropCR l).length ≤ l.length := by
  unfold dropCR
  split
  · simp
  · exact le_refl _

theorem scanSegs_short (ls : List GoString) (rem : GoString) :
    ∀ t ∈ scanSegs ls rem, t.length < maxScanTokenSize := by
  induction ls with
  | nil =>
    intro t ht
    rw [scanSegs] at ht
    split at ht
    · simp at ht
    · rename_i h
      rw [List.mem_singleton] at ht
      have := dropCR_length_le rem
      rw [ht]
      have h2 : rem.length < maxScanTokenSize := by
        by_contra hc
        exact h (Or.inr hc)
      omega
  | cons l ls ih =>
    intro t ht
    rw [scanSegs] at ht
    split at ht
    · rename_i h
      rcases List.mem_cons.1 ht with rfl | ht
      · have := dropCR_length_le l
        omega
      · exact ih t ht
    · simp at ht

/-- Every line the scanner delivers fits its buffer. -/
theorem scanLines_short (r : GoString) : ∀ t ∈ scanLines r, t.length < maxScanTokenSize :=
  scanSegs_short _ _

/-- Lines without newline and terminal carriage return that fit the buffer are scanned back
from what `Fprintln` writes as they are. -/
theorem scanLines_joinLines (ls : List GoString)
    (h : ∀ l ∈ ls, '\n' ∉ l ∧ l.length < maxScanTokenSize ∧ l.getLast? ≠ some '\r') :
    scanLines (joinLines ls) = ls := by
  induction ls with
  | nil => rfl
  | cons l ls ih =>
    obtain ⟨h1, h2, h3⟩ := h l (List.mem_cons_self _ _)
    rw [joinLines_cons, scanLines_append_nl _ _ h1, if_pos h2,
      ih (fun x hx => h x (List.mem_cons_of_mem _ hx))]
    simp [dropCR, h3]

theorem lastMatch_drop (p : GoString → Bool) (fs : List GoString) (n : Nat) :
    lastMatch p (fs.drop n) =
      match lastMatch p fs with
      | some k => if n ≤ k then some (k - n) else none
      | none => none := by
  induction fs generalizing n with
  | nil => simp [lastMatch]
  | cons x xs ih =>
    cases n with
    | zero =>
      simp only [List.drop_zero]
      cases lastMatch p (x :: xs) <;> simp
    | succ m =>
      rw [List.drop_succ_cons, ih m, lastMatch]
      cases hl : lastMatch p xs with
      | some j =>
        simp only
        by_cases hm : m ≤ j
        · simp [hm]
        · simp [hm]
      | none =>
        simp only
        cases hp : p x <;> simp

/-- The anchor of the frame lines that remain after the first `n` are dropped. -/
theorem anchorOf_drop (p : GoString → Bool) (fs : List GoString) (n : Nat)
    (hlen : fs.length ≤ 65535) :
    anchorOf p (fs.drop n) =
      if anchorOf p fs ≠ nilAnchor ∧ (n : Int) ≤ anchorOf p fs then anchorOf p fs - n
      else nilAnchor := by
  unfold anchorOf
  rw [lastMatch_drop]
  cases hl : lastMatch p fs with
  | none => simp
  | some k =>
    have hk := lastMatch_lt p fs k hl
    simp only [List.length_drop]
    unfold nilAnchor
    by_cases hn : n ≤ k
    · simp only [hn, if_true]
      by_cases hfin : (k : Int) + 1 = fs.length
      · have e1 : ((k - n : Nat) : Int) + 1 = ((fs.length - n : Nat) : Int) := by omega
        simp [hfin, e1]
      · have e1 : ¬ (((k - n : Nat) : Int) + 1 = ((fs.length - n : Nat) : Int)) := by omega
        have e2 : ¬ ((k : Int) = 65535) := by omega
        have e3 : (n : Int) ≤ k := by omega
        simp only [hfin, e1, if_false]
        rw [if_pos ⟨e2, e3⟩]
        omega
    · simp only [hn, if_false]
      by_cases hfin : (k : Int) + 1 = fs.length
      · simp [hfin]
      · have e3 : ¬ ((n : Int) ≤ k) := by omega
        simp only [hfin, if_false]
        rw [if_neg]
        rintro ⟨_, h2⟩
        exact e3 h2

theorem anchorOf_nil_or_bound (p : GoString → Bool) (fs : List GoString) :
    anchorOf p fs = nilAnchor ∨ (0 ≤ anchorOf p fs ∧ anchorOf p fs + 1 < fs.length) := by
  by_cases h : anchorOf p fs = nilAnchor
  · exact Or.inl h
  · exact Or.inr (anchorOf_bound p fs h)

/-- After a trim that dropped frame lines, the remaining lines have no anchor, or one whose
threshold is not positive. -/
theorem anchorOfFrames_drop (si : stackInfo) (fs : List GoString) (n : Nat)
    (hlen : fs.length ≤ 65535) (hA : anchorOfFrames si fs ≠ nilAnchor)
    (hn : n = (threshold si (anchorOfFrames si fs)).toNat) (hpos : 0 < n) :
    anchorOfFrames si (fs.drop n) = nilAnchor ∨
      threshold si (anchorOfFrames si (fs.drop n)) ≤ 0 := by
  have ha := anchorOf_drop si.isAnchor fs n hlen
  have hf := anchorOf_drop si.isFuncAnchor fs n hlen
  have hba := anchorOf_nil_or_bound si.isAnchor fs
  have hbf := anchorOf_nil_or_bound si.isFuncAnchor fs
  unfold anchorOfFrames at hA hn ⊢
  rw [ha, hf]
  generalize anchorOf si.isAnchor fs = a at *
  generalize anchorOf si.isFuncAnchor fs = f at *
  generalize si.Level = lvl at *
  unfold threshold int64 nilAnchor at *
  by_cases hd : si.FuncName ≠ [] ∧ si.Regexp.isSome = true
  · simp only [if_pos hd] at hA hn ⊢
    split_ifs at hA hn ⊢ <;> omega
  · simp only [if_neg hd] at hA hn ⊢
    split_ifs at hA hn ⊢ <;> omega

theorem trimmedLines_idem (si : stackInfo) (ls : List GoString) (hlen : ls.length < 65537) :
    trimmedLines si (trimmedLines si ls) = trimmedLines si ls := by
  cases ls with
  | nil => rfl
  | cons c fs =>
    have hfs : fs.length ≤ 65535 := by simp only [List.length_cons] at hlen; omega
    by_cases hA : anchorOfFrames si fs = nilAnchor
    · have e : trimmedLines si (c :: fs) = c :: fs := by rw [trimmedLines, if_pos hA]
      rw [e, e]
    · have e : trimmedLines si (c :: fs) =
          c :: fs.drop (threshold si (anchorOfFrames si fs)).toNat := by
        rw [trimmedLines, if_neg hA]
      by_cases hn0 : (threshold si (anchorOfFrames si fs)).toNat = 0
      · rw [hn0, List.drop_zero] at e
        rw [e, e]
      · rw [e, trimmedLines]
        rcases anchorOfFrames_drop si fs _ hfs hA rfl (Nat.pos_of_ne_zero hn0) with h | h
        · rw [if_pos h]
        · split
          · rfl
          · have e0 : (threshold si (anchorOfFrames si
                (fs.drop (threshold si (anchorOfFrames si fs)).toNat))).toNat = 0 := by
              omega
            rw [e0, List.drop_zero]

theorem trimmedLines_subset (si : stackInfo) (ls : List GoString) :
    ∀ l ∈ trimmedLines si ls, l ∈ ls := by
  cases ls with
  | nil => intro l hl; simp [trimmedLines] at hl
  | cons c fs =>
    intro l hl
    rw [trimmedLines] at hl
    split at hl
    · exact hl
    · rcases List.mem_cons.1 hl with rfl | hl
      · exact List.mem_cons_self _ _
      · exact List.mem_cons_of_mem _ (List.mem_of_mem_drop hl)

/-- C28 (as stated) fails: `crcrTrace` is newline-terminated and has three lines, each ending
in two carriage returns; the scanner strips one of them at each application, so the second
application changes the output of the first. -/
theorem trim_twice_differs_on_crcr :
    NewlineTerminated crcrTrace ∧ lineCount crcrTrace < 65537 ∧
    stackPrint crcrTrace ⟨[], "panic(".toList, 0, none⟩ = crcrTraceOnce ∧
    stackPrint (stackPrint crcrTrace ⟨[], "panic(".toList, 0, none⟩)
        ⟨[], "panic(".toList, 0, none⟩ ≠
      stackPrint crcrTrace ⟨[], "panic(".toList, 0, none⟩ := by
  decide!

/-- C28 (amended): for every input with fewer than 65537 scanned lines none of which ends in
a carriage return (no input line ends in two of them), and every criterion, applying
`stackPrint` to the output of `stackPrint` yields that same output again. -/
theorem stackPrint_idempotent (r : GoString) (si : stackInfo)
    (hlen : (scanLines r).length < 65537)
    (hcr : ∀ t ∈ scanLines r, t.getLast? ≠ some '\r') :
    stackPrint (stackPrint r si) si = stackPrint r si := by
  have hplain : ∀ l ∈ trimmedLines si (scanLines r),
      '\n' ∉ l ∧ l.length < maxScanTokenSize ∧ l.getLast? ≠ some '\r' := by
    intro l hl
    have hm := trimmedLines_subset si _ l hl
    exact ⟨scanLines_noNL r l hm, scanLines_short r l hm, hcr l hm⟩
  rw [stackPrint_trimmedLines (stackPrint r si) si, stackPrint_trimmedLines r si,
    scanLines_joinLines _ hplain, trimmedLines_idem si _ hlen]

/-- Witness of C28 (amended): the case `medium level 2` of `TestStackPrint_limit`, trimmed
again. -/
theorem stackPrint_idempotent_witness :
    stackPrint (stackPrint input1 ⟨"err2".toList, "Returnw(".toList, 2, none⟩)
        ⟨"err2".toList, "Returnw(".toList, 2, none⟩ =
      stackPrint input1 ⟨"err2".toList, "Returnw(".toList, 2, none⟩ :=
  stackPrint_idempotent input1 ⟨"err2".toList, "Returnw(".toList, 2, none⟩
    (by decide!) (by decide!)

/-! ## The lines of the input and the lines scanned -/

theorem splitNL_joinLines (ls : List GoString) (h : ∀ l ∈ ls, '\n' ∉ l) :
    splitNL (joinLines ls) = (ls, []) := by
  induction ls with
  | nil => rfl
  | cons l ls ih =>
    rw [joinLines_cons, splitNL_append_nl l _ (h l (List.mem_cons_self l ls)),
      ih fun m hm => h m (List.mem_cons_of_mem l hm)]

theorem inputLines_joinLines (ls : List GoString) (h : ∀ l ∈ ls, '\n' ∉ l) :
    inputLines (joinLines ls) = ls := by
  unfold inputLines
  rw [splitNL_joinLines ls h]
  simp

theorem inputLines_terminated (r : GoString) (ht : NewlineTerminated r) :
    inputLines r = (splitNL r).1 := by
  unfold inputLines
  rw [splitNL_rem_of_terminated r ht]
  simp

theorem scanSegs_plain_rem (ls : List GoString) (rem : GoString)
    (h : ∀ l ∈ ls ++ (if rem = [] then [] else [rem]),
      l.getLast? ≠ some '\r' ∧ l.length < maxScanTokenSize) :
    scanSegs ls rem = ls ++ (if rem = [] then [] else [rem]) := by
  induction ls with
  | nil =>
    by_cases hr : rem = []
    · simp [scanSegs, hr]
    · have h1 := h rem (by simp [hr])
      simp [scanSegs, hr, h1.2, dropCR, h1.1]
  | cons l ls ih =>
    have h1 := h l (by simp)
    have h2 := ih fun m hm => h m (by
      rw [List.cons_append]
      exact List.mem_cons_of_mem l hm)
    rw [scanSegs, if_pos h1.2, h2]
    simp [dropCR, h1.1]

/-- On an input of plain lines the scanner delivers the lines of the input itself. -/
theorem scanLines_of_plainInput (r : GoString) (hp : PlainInput r) :
    scanLines r = inputLines r :=
  scanSegs_plain_rem _ _ hp

theorem frameLines_of_plainInput (r : GoString) (hp : PlainInput r) :
    frameLines r = inputFrames r := by
  unfold frameLines inputFrames
  rw [scanLines_of_plainInput r hp]

theorem joinLines_terminated (l : GoString) (ls : List GoString) :
    NewlineTerminated (joinLines (l :: ls)) := by
  unfold NewlineTerminated
  induction ls generalizing l with
  | nil => simp [joinLines]
  | cons m ms ih =>
    rw [joinLines_cons]
    have h := ih m
    cases hj : joinLines (m :: ms) with
    | nil => rw [hj] at h; simp at h
    | cons x xs =>
      rw [hj] at h
      rw [List.getLast?_append, List.getLast?_cons_cons, h]
      rfl

theorem scanLines_joinLines_plain (l : GoString) (ls : List GoString) (h : '\n' ∉ l)
    (hcr : l.getLast? ≠ some '\r') (hlen : l.length < maxScanTokenSize) :
    scanLines (joinLines (l :: ls)) = l :: scanLines (joinLines ls) := by
  rw [joinLines_cons, scanLines_append_nl l _ h, if_pos hlen, dropCR, if_neg hcr]

theorem scanLines_joinLines_long (l : GoString) (ls : List GoString) (h : '\n' ∉ l)
    (hlen : ¬ l.length < maxScanTokenSize) : scanLines (joinLines (l :: ls)) = [] := by
  rw [joinLines_cons, scanLines_append_nl l _ h, if_neg hlen]

theorem longLine_length : longLine.length = 65536 := List.length_replicate _ _

theorem longLine_mem (c : Char) (h : c ∈ longLine) : c = 'x' :=
  List.eq_of_mem_replicate h

theorem longLine_noNL : '\n' ∉ longLine := fun h =>
  absurd (longLine_mem _ h) (by decide)

theorem longLine_too_long : ¬ longLine.length < maxScanTokenSize := by
  rw [longLine_length]
  decide

theorem longLine_Contains : Contains longLine "a(".toList = false := by
  rw [Bool.eq_false_iff]
  intro h
  rw [ Contains_iff_infix] at h
  have hm : 'a' ∈ longLine := h.subset (by simp)
  exact absurd (longLine_mem _ hm) (by decide)

theorem scanLines_longTraceA :
    scanLines longTraceA = ["goroutine 1 [running]:".toList, "main.a()".toList] := by
  unfold longTraceA
  rw [scanLines_joinLines_plain _ _ (by decide) (by decide) (by decide),
    scanLines_joinLines_plain _ _ (by decide) (by decide) (by decide),
    scanLines_joinLines_long _ _ longLine_noNL longLine_too_long]

theorem scanLines_longTraceB :
    scanLines longTraceB =
      ["goroutine 1 [running]:".toList, "main.a()".toList, "\tmain.go:1".toList] := by
  unfold longTraceB
  rw [scanLines_joinLines_plain _ _ (by decide) (by decide) (by decide),
    scanLines_joinLines_plain _ _ (by decide) (by decide) (by decide),
    scanLines_joinLines_plain _ _ (by decide) (by decide) (by decide),
    scanLines_joinLines_long _ _ longLine_noNL longLine_too_long]

theorem inputLines_longTraceA :
    inputLines longTraceA =
      ["goroutine 1 [running]:".toList, "main.a()".toList, longLine, "main.main()".toList,
        "\tmain.go:9".toList] := by
  unfold longTraceA
  apply inputLines_joinLines
  intro l hl
  simp only [List.mem_cons, List.mem_singleton, List.not_mem_nil, or_false] at hl
  rcases hl with rfl | rfl | rfl | rfl | rfl
  · decide
  · decide
  · exact longLine_noNL
  · decide
  · decide

theorem inputLines_longTraceB :
    inputLines longTraceB =
      ["goroutine 1 [running]:".toList, "main.a()".toList, "\tmain.go:1".toList, longLine,
        "main.a()".toList] := by
  unfold longTraceB
  apply inputLines_joinLines
  intro l hl
  simp only [List.mem_cons, List.mem_singleton, List.not_mem_nil, or_false] at hl
  rcases hl with rfl | rfl | rfl | rfl | rfl
  · decide
  · decide
  · decide
  · exact longLine_noNL
  · decide

theorem lineCount_longTraceB : lineCount longTraceB = 5 := by
  unfold longTraceB
  rw [lineCount_joinLines]
  · rfl
  · intro l hl
    simp only [List.mem_cons, List.mem_singleton, List.not_mem_nil, or_false] at hl
    rcases hl with rfl | rfl | rfl | rfl | rfl
    · decide
    · decide
    · decide
    · exact longLine_noNL
    · decide

theorem calcWith_of_scanLines (r : GoString) (p : GoString → Bool) (ls : List GoString)
    (h : scanLines r = ls) : calcWith r p = anchorOf p ls.tail := by
  rw [calcWith_frames, frameLines, h]

theorem calcAnchor_of_scanLines (r : GoString) (si : stackInfo) (ls : List GoString)
    (h : scanLines r = ls) : calcAnchor r si = anchorOfFrames si ls.tail := by
  rw [calcAnchor_frames, frameLines, h]

theorem stackPrint_of_scanLines (r : GoString) (si : stackInfo) (ls : List GoString)
    (h : scanLines r = ls) : stackPrint r si = joinLines (trimmedLines si ls) := by
  rw [stackPrint_trimmedLines, h]

/-! ## Trimming, read over the lines of the input -/

/-- C1 (as stated) fails, on two newline-terminated traces with the criterion `a(` at level 0,
for which the anchor 0 is found and `2*si.Level + A` is 0, so that every line of the input
should be written unchanged.  On `crTrace` every written line has lost its carriage return:
the output is `shortTrace`.  On `longTraceB` the output ends before the line of 65536 bytes:
it has three lines where the input has five. -/
theorem trimmed_lines_differ_from_input :
    NewlineTerminated crTrace ∧
    calcAnchor crTrace ⟨[], "a(".toList, 0, none⟩ = 0 ∧
    calcAnchor crTrace ⟨[], "a(".toList, 0, none⟩ ≠ nilAnchor ∧
    trimOfInput crTrace ⟨[], "a(".toList, 0, none⟩ = crTrace ∧
    stackPrint crTrace ⟨[], "a(".toList, 0, none⟩ = shortTrace ∧
    stackPrint crTrace ⟨[], "a(".toList, 0, none⟩ ≠
      trimOfInput crTrace ⟨[], "a(".toList, 0, none⟩ ∧
    NewlineTerminated longTraceB ∧
    calcAnchor longTraceB ⟨[], "a(".toList, 0, none⟩ = 0 ∧
    calcAnchor longTraceB ⟨[], "a(".toList, 0, none⟩ ≠ nilAnchor ∧
    trimOfInput longTraceB ⟨[], "a(".toList, 0, none⟩ = longTraceB ∧
    stackPrint longTraceB ⟨[], "a(".toList, 0, none⟩ =
      joinLines ["goroutine 1 [running]:".toList, "main.a()".toList, "\tmain.go:1".toList] ∧
    stackPrint longTraceB ⟨[], "a(".toList, 0, none⟩ ≠
      trimOfInput longTraceB ⟨[], "a(".toList, 0, none⟩ := by
  have hA : calcAnchor longTraceB ⟨[], "a(".toList, 0, none⟩ = 0 := by
    rw [calcAnchor_of_scanLines _ _ _ scanLines_longTraceB]
    decide!
  have hT : trimOfInput longTraceB ⟨[], "a(".toList, 0, none⟩ = longTraceB := by
    unfold trimOfInput inputFrames
    rw [hA, inputLines_longTraceB]
    rfl
  have hS : stackPrint longTraceB ⟨[], "a(".toList, 0, none⟩ =
      joinLines ["goroutine 1 [running]:".toList, "main.a()".toList, "\tmain.go:1".toList] := by
    rw [stackPrint_of_scanLines _ _ _ scanLines_longTraceB]
    decide!
  refine ⟨by decide!, by decide!, by decide!, by decide!, by decide!, by decide!,
    joinLines_terminated _ _, hA, ?_, hT, hS, ?_⟩
  · rw [hA]
    decide
  · rw [hT, hS]
    intro h
    have hc := congrArg lineCount h
    rw [lineCount_longTraceB] at hc
    revert hc
    decide!

/-- C1 (amended): for a newline-terminated input whose lines do not end in a carriage return
and are shorter than the scanner's buffer, and a found anchor `A`, `stackPrint` writes the
caption line followed by exactly the frame lines of the input of index at least
`2*si.Level + A`, unchanged and in input order, and when that value is positive the output
has strictly fewer lines than the input.  `2*si.Level + A` is the value `threshold` of the Go
expression, the number itself when it is within the 64-bit range. -/
theorem stackPrint_trim_correct (r : GoString) (si : stackInfo)
    (ht : NewlineTerminated r) (hp : PlainInput r) (hA : calcAnchor r si ≠ nilAnchor) :
    ∃ c, inputLines r = c :: inputFrames r ∧ r = joinLines (c :: inputFrames r) ∧
      stackPrint r si =
        joinLines (c :: (inputFrames r).drop (threshold si (calcAnchor r si)).toNat) ∧
      (threshold si (calcAnchor r si) > 0 → lineCount (stackPrint r si) < lineCount r) ∧
      (-9223372036854775808 ≤ 2 * si.Level + calcAnchor r si →
        2 * si.Level + calcAnchor r si < 9223372036854775808 →
        threshold si (calcAnchor r si) = 2 * si.Level + calcAnchor r si ∧
        stackPrint r si = trimOfInput r si) := by
  obtain ⟨c, hc, hout⟩ := stackPrint_found r si hA
  rw [← threshold_eq] at hout
  have hb := calcAnchor_bound r si hA
  have hs := scanLines_of_plainInput r hp
  have hf := frameLines_of_plainInput r hp
  have hj : joinLines (inputLines r) = r := by
    have h := joinLines_splitNL r
    rw [splitNL_rem_of_terminated r ht, List.append_nil] at h
    rw [inputLines_terminated r ht]
    exact h
  rw [hs, hf] at hc
  rw [hf] at hout hb
  refine ⟨c, hc, ?_, hout, ?_, ?_⟩
  · rw [← hc, hj]
  · intro hpos
    have hle := lineCount_terminated r ht
    have hcount := lineCount_stackPrint_found r si hA
    rw [← threshold_eq, hf] at hcount
    rw [hs, hc] at hle
    simp only [List.length_cons] at hle
    omega
  · intro h1 h2
    have ht2 : threshold si (calcAnchor r si) = 2 * si.Level + calcAnchor r si := by
      rw [threshold_eq, int64_of_range _ h1 h2]
    refine ⟨ht2, ?_⟩
    rw [hout, ht2, trimOfInput, hc]
    rfl

/-- Witness of C1 (amended) on a short trace with level 1: the first frame pair is
dropped. -/
theorem stackPrint_trim_correct_witness :
    ∃ c, inputLines shortTrace = c :: inputFrames shortTrace ∧
      shortTrace = joinLines (c :: inputFrames shortTrace) ∧
      stackPrint shortTrace ⟨[], "a(".toList, 1, none⟩ =
        joinLines (c :: (inputFrames shortTrace).drop (threshold ⟨[], "a(".toList, 1, none⟩
          (calcAnchor shortTrace ⟨[], "a(".toList, 1, none⟩)).toNat) ∧
      (threshold ⟨[], "a(".toList, 1, none⟩
          (calcAnchor shortTrace ⟨[], "a(".toList, 1, none⟩) > 0 →
        lineCount (stackPrint shortTrace ⟨[], "a(".toList, 1, none⟩) < lineCount shortTrace) ∧
      (-9223372036854775808 ≤ 2 * 1 + calcAnchor shortTrace ⟨[], "a(".toList, 1, none⟩ →
        2 * 1 + calcAnchor shortTrace ⟨[], "a(".toList, 1, none⟩ < 9223372036854775808 →
        threshold ⟨[], "a(".toList, 1, none⟩
            (calcAnchor shortTrace ⟨[], "a(".toList, 1, none⟩) =
          2 * 1 + calcAnchor shortTrace ⟨[], "a(".toList, 1, none⟩ ∧
        stackPrint shortTrace ⟨[], "a(".toList, 1, none⟩ =
          trimOfInput shortTrace ⟨[], "a(".toList, 1, none⟩) :=
  stackPrint_trim_correct shortTrace ⟨[], "a(".toList, 1, none⟩ (by decide!) (by decide!)
    (by decide!)

/-! ## The anchor, read over the lines of the input -/

/-- C2 (as stated) fails.  In `longTraceA` the only frame line that contains `a(` is frame 0,
which is not the final line of the input, yet `calc` returns `nilAnchor`, not 0: the scanner
stops at the line of 65536 bytes that follows, so frame 0 is the final line `calc` sees.  In
`crTrace` the last frame line that contains a closing parenthesis followed by a carriage
return is frame 2, not the final line, yet `calc` returns `nilAnchor`, not 2: the predicate is
applied to the lines without their carriage return. -/
theorem calc_misses_last_match :
    (inputFrames longTraceA)[0]? = some "main.a()".toList ∧
    Contains "main.a()".toList "a(".toList = true ∧
    (∀ g ∈ (inputFrames longTraceA).drop (0 + 1), Contains g "a(".toList = false) ∧
    0 + 1 < (inputFrames longTraceA).length ∧
    calcWith longTraceA (fun s => Contains s "a(".toList) = nilAnchor ∧
    calcWith longTraceA (fun s => Contains s "a(".toList) ≠ ((0 : Nat) : Int) ∧
    (inputFrames crTrace)[2]? = some "main.main()\r".toList ∧
    Contains "main.main()\r".toList ")\r".toList = true ∧
    (∀ g ∈ (inputFrames crTrace).drop (2 + 1), Contains g ")\r".toList = false) ∧
    2 + 1 < (inputFrames crTrace).length ∧
    calcWith crTrace (fun s => Contains s ")\r".toList) = nilAnchor ∧
    calcWith crTrace (fun s => Contains s ")\r".toList) ≠ ((2 : Nat) : Int) := by
  have hA : calcWith longTraceA (fun s => Contains s "a(".toList) = nilAnchor := by
    rw [calcWith_of_scanLines _ _ _ scanLines_longTraceA]
    decide!
  refine ⟨?_, by decide, ?_, ?_, hA, ?_, by decide!, by decide!, by decide!, by decide!,
    by decide!, by decide!⟩
  · rw [inputFrames, inputLines_longTraceA]
    rfl
  · rw [inputFrames, inputLines_longTraceA]
    intro g hg
    simp only [List.tail_cons, List.drop_succ_cons, List.drop_zero, List.mem_cons,
      List.mem_singleton, List.not_mem_nil, or_false] at hg
    rcases hg with rfl | rfl | rfl
    · exact longLine_Contains
    · decide
    · decide
  · rw [inputFrames, inputLines_longTraceA]
    decide
  · rw [hA]
    decide

/-- C2 (amended): for an input whose lines do not end in a carriage return and are shorter
than the scanner's buffer and every match predicate, if some frame line matches and the last
matching frame line (index `k`, no later frame line matches) is not the final line of the
input, `calc` returns `k`; and the result of `calc` does not depend on what the predicate says
about the caption line. -/
theorem calc_returns_last_match (r : GoString) (p : GoString → Bool) (hpl : PlainInput r) :
    (∀ k f, (inputFrames r)[k]? = some f → p f = true →
        (∀ g ∈ (inputFrames r).drop (k + 1), p g = false) →
        k + 1 < (inputFrames r).length → calcWith r p = (k : Int)) ∧
    (∀ q : GoString → Bool, (∀ g ∈ inputFrames r, q g = p g) → calcWith r q = calcWith r p) := by
  have hf := frameLines_of_plainInput r hpl
  constructor
  · intro k f hk hp hlast hlen
    rw [calcWith_frames, hf, anchorOf, lastMatch_some_of_drop p _ k f hk hp hlast]
    have : ¬ ((k : Int) + 1 = (inputFrames r).length) := by omega
    simp [this]
  · intro q hq
    rw [calcWith_frames, calcWith_frames, hf, anchorOf_congr p q _ hq]

/-- Witness of C2 (amended): `panic(` occurs in the caption and in frames 0 and 2 of
`panicTrace`; the anchor is 2, also for a predicate that rejects the caption. -/
theorem calc_returns_last_match_witness :
    calcWith panicTrace (fun s => Contains s "panic(".toList) = 2 ∧
    calcWith panicTrace
        (fun s => Contains s "panic(".toList && !Contains s "goroutine".toList) =
      calcWith panicTrace (fun s => Contains s "panic(".toList) :=
  ⟨(calc_returns_last_match panicTrace (fun s => Contains s "panic(".toList) (by decide!)).1 2
      "panic(2)".toList (by decide!) (by decide!) (by decide!) (by decide!),
    (calc_returns_last_match panicTrace (fun s => Contains s "panic(".toList) (by decide!)).2
      (fun s => Contains s "panic(".toList && !Contains s "goroutine".toList) (by decide!)⟩

/-- C5 (as stated) fails.  In `longTraceB` the last frame line that contains `a(` is the final
line of the input, yet `calc` returns 0, not `nilAnchor`: the scanner stops at the line of
65536 bytes before it, and of the lines `calc` sees the last match is frame 0, which is not
the final one.  In `crTrace` no frame line ends in a closing parenthesis, yet `calc` returns
2, not `nilAnchor`: the predicate is applied to the lines without their carriage return. -/
theorem calc_finds_anchor_on_unplain_input :
    (inputFrames longTraceB).getLast? = some "main.a()".toList ∧
    Contains "main.a()".toList "a(".toList = true ∧
    calcWith longTraceB (fun s => Contains s "a(".toList) = 0 ∧
    calcWith longTraceB (fun s => Contains s "a(".toList) ≠ nilAnchor ∧
    (∀ f ∈ inputFrames crTrace, endsInParen f = false) ∧
    calcWith crTrace endsInParen = 2 ∧
    calcWith crTrace endsInParen ≠ nilAnchor := by
  have hB : calcWith longTraceB (fun s => Contains s "a(".toList) = 0 := by
    rw [calcWith_of_scanLines _ _ _ scanLines_longTraceB]
    decide!
  refine ⟨?_, by decide, hB, ?_, by decide!, by decide!, by decide!⟩
  · rw [inputFrames, inputLines_longTraceB]
    rfl
  · rw [hB]
    decide

/-- C5 (amended): for an input whose lines do not end in a carriage return and are shorter
than the scanner's buffer and every match predicate, `calc` returns `nilAnchor` when the
final frame line matches (so the last matching frame line is the final line of the input),
and when no frame line matches. -/
theorem calc_nilAnchor (r : GoString) (p : GoString → Bool) (hpl : PlainInput r) :
    ((∃ f, (inputFrames r).getLast? = some f ∧ p f = true) → calcWith r p = nilAnchor) ∧
    ((∀ f ∈ inputFrames r, p f = false) → calcWith r p = nilAnchor) := by
  have hf := frameLines_of_plainInput r hpl
  constructor
  · rintro ⟨f, hl, hp⟩
    rw [← hf] at hl
    exact calcWith_last_matches r p f hl hp
  · intro h
    rw [← hf] at h
    exact calcWith_no_match r p h

/-- Witness of C5 (amended): in `shortTrace` only the final line contains `go:9`, and no line
contains `panic(`. -/
theorem calc_nilAnchor_witness :
    calcWith shortTrace (fun s => Contains s "go:9".toList) = nilAnchor ∧
    calcWith shortTrace (fun s => Contains s "panic(".toList) = nilAnchor :=
  ⟨(calc_nilAnchor shortTrace (fun s => Contains s "go:9".toList) (by decide!)).1
      ⟨"\tmain.go:9".toList, by decide!, by decide!⟩,
    (calc_nilAnchor shortTrace (fun s => Contains s "panic(".toList) (by decide!)).2
      (by decide!)⟩

end stackprint


namespace err3

open stackprint (GoString)

/-! ## Normal exit and the registrations of `errHandlefOnly` -/

theorem fire_idle_nil (r : Registration) (l : List Event) :
    r.fire { status := .Idle, err := none, log := l } =
      { status := .Idle, err := none, log := l } := by
  cases r <;> rfl

theorem fire_idle_of_not_handlef (r : Registration) (x : ExitState) (h : x.status = .Idle)
    (hr : ∀ format args, r ≠ .Handlef format args) : r.fire x = x := by
  unfold Registration.fire
  rw [h]
  cases r with
  | Handlef format args => exact absurd rfl (hr format args)
  | Handle => rfl
  | CatchAll => rfl
  | CatchError => rfl

theorem runDeferred_idle_nil (ds : List Registration) (l : List Event) :
    runDeferred ds { status := .Idle, err := none, log := l } =
      { status := .Idle, err := none, log := l } := by
  induction ds with
  | nil => rfl
  | cons d ds ih =>
    unfold runDeferred at ih ⊢
    rw [List.foldl_cons, fire_idle_nil d l]
    exact ih

theorem runDeferred_idle_of_not_handlef (ds : List Registration) (x : ExitState)
    (h : x.status = .Idle) (hr : ∀ r ∈ ds, ∀ format args, r ≠ .Handlef format args) :
    runDeferred ds x = x := by
  induction ds with
  | nil => rfl
  | cons d ds ih =>
    unfold runDeferred at ih ⊢
    rw [List.foldl_cons, fire_idle_of_not_handlef d x h (hr d (List.mem_cons_self d ds))]
    exact ih fun r hm => hr r (List.mem_cons_of_mem d hm)

/-- C21 (as stated) fails: a function that defers `err3.Handlef(&err, "annotated")` and
returns the error `plain` by a plain `return`, with no unwind in flight, hands
`annotated: plain` to its caller: the registration has changed the output slot on a normal
exit.  A deferred call sees the same state here as after an inner registration has
terminated an unwind, where `ExampleHandlef_deferStack` requires it to annotate. -/
theorem handlef_annotates_on_normal_exit :
    ((Defer (.Handlef "annotated".toList [])).bind fun _ =>
        Return (some (.new "plain".toList))) { err := none, deferred := [], log := [] } =
      (.normal (),
        { err := some (.new "plain".toList), deferred := [.Handlef "annotated".toList []],
          log := [] }) ∧
    (call ((Defer (.Handlef "annotated".toList [])).bind fun _ =>
        Return (some (.new "plain".toList))) []).panicked = none ∧
    (call ((Defer (.Handlef "annotated".toList [])).bind fun _ =>
        Return (some (.new "plain".toList))) []).err.map GoError.Error =
      some "annotated: plain".toList ∧
    (call ((Defer (.Handlef "annotated".toList [])).bind fun _ =>
        Return (some (.new "plain".toList))) []).err ≠ some (.new "plain".toList) := by
  decide!

/-- C21 (amended): on a scope that exits normally a deferred `err3.Handle` never changes the
output slot, whatever it holds, and no registration changes a slot that holds no error; a
deferred `err3.Handlef` prepends its annotation to an error the slot holds.  So a call whose
body completes normally returns a nil slot as nil, and returns the slot as the body left it
when no `Handlef` is deferred. -/
theorem registration_on_normal_exit {α : Type} (body : Body α) (log : List Event) :
    (∀ (err : Option GoError) (l : List Event),
      Registration.Handle.fire { status := .Idle, err := err, log := l } =
        { status := .Idle, err := err, log := l }) ∧
    (∀ (r : Registration) (l : List Event),
      r.fire { status := .Idle, err := none, log := l } =
        { status := .Idle, err := none, log := l }) ∧
    (∀ (format : GoString) (args : List Arg) (e : GoError) (l : List Event),
      (Registration.Handlef format args).fire { status := .Idle, err := some e, log := l } =
        { status := .Idle, err := some (annotate format args e), log := l }) ∧
    (∀ (a : α) (s : Scope),
      body { err := none, deferred := [], log := log } = (.normal a, s) → s.err = none →
      call body log = { panicked := none, value := some a, err := none, log := s.log }) ∧
    (∀ (a : α) (s : Scope),
      body { err := none, deferred := [], log := log } = (.normal a, s) →
      (∀ r ∈ s.deferred, ∀ format args, r ≠ .Handlef format args) →
      call body log = { panicked := none, value := some a, err := s.err, log := s.log }) := by
  refine ⟨fun err l => rfl, fun r l => fire_idle_nil r l, fun format args e l => rfl, ?_, ?_⟩
  · intro a s h he
    unfold call
    rw [h]
    simp only
    rw [he, runDeferred_idle_nil]
  · intro a s h hr
    unfold call
    rw [h]
    simp only
    rw [runDeferred_idle_of_not_handlef _ _ rfl hr]

/-- Witness of C21 (amended): `ExampleHandle` ends with a nil error, and a function that
defers `Handle` and returns an error of its own keeps that error. -/
theorem registration_on_normal_exit_witness :
    call exampleHandle [] = { panicked := none, value := some (), err := none, log := [] } ∧
    call ((Defer .Handle).bind fun _ => Return (some (.new "plain".toList))) [] =
      { panicked := none, value := some (), err := some (.new "plain".toList), log := [] } :=
  ⟨(registration_on_normal_exit exampleHandle []).2.2.2.1 ()
      { err := none, deferred := [.Handle], log := [] } rfl rfl,
    (registration_on_normal_exit
      ((Defer .Handle).bind fun _ => Return (some (.new "plain".toList))) []).2.2.2.2 ()
      { err := some (.new "plain".toList), deferred := [.Handle], log := [] } rfl
      (by
        intro r hr format args
        rw [List.mem_singleton] at hr
        rw [hr]
        exact Registration.noConfusion)⟩

/-- C22 (as stated) fails: with the error `boom`, the function of the shape of
`errHandlefOnly` returns `handle top: handle error: boom`, not `handle top: boom`. -/
theorem errHandlefOnly_not_top_only :
    (call (errHandlefOnlyWith (.new "boom".toList)) []).err.map GoError.Error =
      some "handle top: handle error: boom".toList ∧
    (call (errHandlefOnlyWith (.new "boom".toList)) []).err.map GoError.Error ≠
      some "handle top: boom".toList := by
  decide!

/-- C22 (amended): a function of the shape of `errHandlefOnly` whose checks raise an error
`e` ends its body at the first check, with two registrations installed; both contribute, the
inner one first, and the function returns normally with the message
`handle top: handle error: ` followed by the message of `e`; for `errHandlefOnly` itself,
`handle top: handle error: this is an ERROR`. -/
theorem errHandlefOnly_message (e : GoError) (log : List Event) :
    errHandlefOnlyWith e { err := none, deferred := [], log := log } =
      (.unwind (.error e),
        { err := none,
          deferred := [.Handlef "handle error".toList [], .Handlef "handle top".toList []],
          log := log }) ∧
    (call (errHandlefOnlyWith e) log).panicked = none ∧
    (call (errHandlefOnlyWith e) log).log = log ∧
    (call (errHandlefOnlyWith e) log).err.map GoError.Error =
      some ("handle top: handle error: ".toList ++ e.Error) ∧
    (call errHandlefOnly []).err.map GoError.Error =
      some "handle top: handle error: this is an ERROR".toList := by
  refine ⟨rfl, rfl, rfl, ?_, by decide!⟩
  simp [call, errHandlefOnlyWith, Body.bind, Defer, Check1, runDeferred, Registration.fire,
    classify, annotate, GoError.Error, Sprintf]

end err3

namespace assert

open stackprint (GoString)

/-! ## Assertions and the registry -/

theorem PushTester_testBit {TB : Type} (k : Nat) (g : Int) (t : Option TB) (st : State TB) :
    (PushTester (2 ^ k) g t st).DefaultAsserter.testBit k = true := by
  simp only [PushTester]
  split
  · simp [Nat.testBit_two_pow_self]
  · rename_i h
    by_contra hb
    apply h
    apply Nat.eq_of_testBit_eq
    intro i
    by_cases hi : k = i
    · subst hi
      simp at hb
      simp [hb]
    · simp [Nat.testBit_two_pow_of_ne hi]

theorem PushTester_flag {TB : Type} (k : Nat) (g : Int) (t : Option TB) (st : State TB) :
    (PushTester (2 ^ k) g t st).DefaultAsserter &&& 2 ^ k ≠ 0 := by
  intro h
  have h1 := congrArg (fun n => Nat.testBit n k) h
  simp [Nat.testBit_two_pow_self, PushTester_testBit] at h1

/-- C23: `That(term, a...)` calls `DefaultAsserter.reportAssertionFault` with the default
message `assertion violation` and the arguments `a` exactly when `term` is false, for every
state of the flag and of the registry; with a true `term` it does nothing; with a false
`term` the report is its only call, or the second after `Helper()` on the registered tester;
it never calls a method on a nil tester.  `ThatNot(term, a...)` is `That(!term, a...)`. -/
theorem That_reports_iff_false {TB A : Type} (flag : Nat) (goid : Int) (st : State TB)
    (term : Bool) (a : List A) :
    (Event.reportAssertionFault st.DefaultAsserter "assertion violation".toList a ∈
        That flag goid st term a ↔ term = false) ∧
    (term = true → That flag goid st term a = []) ∧
    (term = false →
      That flag goid st term a =
          [.reportAssertionFault st.DefaultAsserter "assertion violation".toList a] ∨
        ∃ t, tester goid st = some t ∧
          That flag goid st term a =
            [.Helper t,
              .reportAssertionFault st.DefaultAsserter "assertion violation".toList a]) ∧
    Event.nilDereference ∉ That flag goid st term a ∧
    ThatNot flag goid st term a = That flag goid st (!term) a := by
  cases term with
  | true => simp [That, ThatNot]
  | false =>
    cases ht : tester goid st with
    | none => simp [That, ThatNot, isUnitTesting, ht]
    | some t =>
      by_cases hf : st.DefaultAsserter &&& flag = 0
      · simp [That, ThatNot, isUnitTesting, ht, hf]
      · simp [That, ThatNot, isUnitTesting, ht, hf]

/-- Witness of C23: a true term does nothing and a false term reports, with the flag `32` set
in the asserter `50` and the tester `t7` registered for goroutine 7. -/
theorem That_reports_iff_false_witness :
    That 32 7 (⟨50, fun g => if g = 7 then some "t7" else none⟩ : State String) true
        ([] : List Unit) = [] ∧
    (That 32 7 (⟨50, fun g => if g = 7 then some "t7" else none⟩ : State String) false
          ([] : List Unit) = [.reportAssertionFault 50 "assertion violation".toList []] ∨
      ∃ t, tester 7 (⟨50, fun g => if g = 7 then some "t7" else none⟩ : State String) = some t ∧
        That 32 7 (⟨50, fun g => if g = 7 then some "t7" else none⟩ : State String) false
            ([] : List Unit) =
          [.Helper t, .reportAssertionFault 50 "assertion violation".toList []]) :=
  ⟨(That_reports_iff_false 32 7 ⟨50, fun g => if g = 7 then some "t7" else none⟩ true
      ([] : List Unit)).2.1 rfl,
    (That_reports_iff_false 32 7 ⟨50, fun g => if g = 7 then some "t7" else none⟩ false
      ([] : List Unit)).2.2.1 rfl⟩

/-- C24: after `PushTester(t)` on goroutine `g` the lookup `tester()` on `g` returns `t`;
after `PopTester()` on `g` it returns nil; neither call changes the lookup on another
goroutine. -/
theorem registry_push_pop {TB : Type} (flag : Nat) (g : Int) (t : Option TB) (st : State TB) :
    tester g (PushTester flag g t st) = t ∧
    tester g (PopTester g st) = none ∧
    (∀ g1, g1 ≠ g → tester g1 (PushTester flag g t st) = tester g1 st) ∧
    (∀ g1, g1 ≠ g → tester g1 (PopTester g st) = tester g1 st) := by
  refine ⟨?_, ?_, ?_, ?_⟩
  · simp [tester, PushTester]
  · simp [tester, PopTester]
  · intro g1 h
    simp [tester, PushTester, h]
  · intro g1 h
    simp [tester, PopTester, h]

/-- Witness of C24: goroutine 7 pushes and pops while goroutine 8 has a tester. -/
theorem registry_push_pop_witness :
    tester 8 (PushTester 16 7 (some "t7") ⟨3, fun g => if g = 8 then some "t8" else none⟩) =
      tester 8 (⟨3, fun g => if g = 8 then some "t8" else none⟩ : State String) ∧
    tester 8 (PopTester 7 ⟨3, fun g => if g = 8 then some "t8" else none⟩) =
      tester 8 (⟨3, fun g => if g = 8 then some "t8" else none⟩ : State String) :=
  ⟨(registry_push_pop 16 7 (some "t7") ⟨3, fun g => if g = 8 then some "t8" else none⟩).2.2.1 8
      (by decide),
    (registry_push_pop 16 7 (some "t7") ⟨3, fun g => if g = 8 then some "t8" else none⟩).2.2.2 8
      (by decide)⟩

/-- C30 (as stated) fails: with the flag `32`, after `PushTester(t7)` and `PopTester()` on
goroutine 7 the asserter `18` has become `50`, the flag is still set and `tester()` is nil,
but a failing assertion does not call `Helper()` on that nil value: its only call is the
report of the assertion fault. -/
theorem push_pop_skips_Helper :
    (PopTester 7 (PushTester 32 7 (some "t7")
      (⟨18, fun _ => none⟩ : State String))).DefaultAsserter = 50 ∧
    50 &&& 32 ≠ 0 ∧
    tester 7 (PopTester 7 (PushTester 32 7 (some "t7")
      (⟨18, fun _ => none⟩ : State String))) = none ∧
    That 32 7 (PopTester 7 (PushTester 32 7 (some "t7") (⟨18, fun _ => none⟩ : State String)))
        false ([] : List Unit) =
      [.reportAssertionFault 50 "assertion violation".toList []] ∧
    (Event.nilDereference : Event String Unit) ∉
      That 32 7 (PopTester 7 (PushTester 32 7 (some "t7") (⟨18, fun _ => none⟩ : State String)))
        false ([] : List Unit) := by
  decide

/-- C30 (amended): `PushTester` sets the unit-testing bit (bit `k`) of `DefaultAsserter` and
leaves every other bit as it was; `PopTester` removes the entry of the calling goroutine only
and leaves `DefaultAsserter` as it is; so after `PushTester(t)` and `PopTester()` the flag is
still set while `tester()` is nil, the asserter is not unit testing on that goroutine, and a
failing assertion reports the assertion fault without calling `Helper()`. -/
theorem push_pop_leaves_flag {TB A : Type} (k : Nat) (g : Int) (t : Option TB)
    (st : State TB) (a : List A) :
    (PushTester (2 ^ k) g t st).DefaultAsserter.testBit k = true ∧
    (∀ i, i ≠ k →
      (PushTester (2 ^ k) g t st).DefaultAsserter.testBit i = st.DefaultAsserter.testBit i) ∧
    (PopTester g (PushTester (2 ^ k) g t st)).DefaultAsserter =
      (PushTester (2 ^ k) g t st).DefaultAsserter ∧
    (∀ g1, g1 ≠ g →
      tester g1 (PopTester g (PushTester (2 ^ k) g t st)) =
        tester g1 (PushTester (2 ^ k) g t st)) ∧
    (PopTester g (PushTester (2 ^ k) g t st)).DefaultAsserter &&& 2 ^ k ≠ 0 ∧
    tester g (PopTester g (PushTester (2 ^ k) g t st)) = none ∧
    isUnitTesting (2 ^ k) g (PopTester g (PushTester (2 ^ k) g t st))
      (PopTester g (PushTester (2 ^ k) g t st)).DefaultAsserter = false ∧
    That (2 ^ k) g (PopTester g (PushTester (2 ^ k) g t st)) false a =
      [.reportAssertionFault (PushTester (2 ^ k) g t st).DefaultAsserter
        "assertion violation".toList a] := by
  refine ⟨PushTester_testBit k g t st, ?_, rfl, ?_, PushTester_flag k g t st, ?_, ?_, ?_⟩
  · intro i hi
    simp only [PushTester]
    split
    · simp [Nat.testBit_two_pow_of_ne (Ne.symm hi)]
    · rfl
  · intro g1 h
    simp [tester, PopTester, h]
  · simp [tester, PopTester]
  · simp [isUnitTesting, tester, PopTester]
  · simp [That, isUnitTesting, tester, PopTester]

/-- Witness of C30 (amended): the flag `1 << 4` on the asserter `3`; bit 0 is unchanged. -/
theorem push_pop_leaves_flag_witness :
    (PushTester (2 ^ 4) 7 (some "t7") (⟨3, fun _ => none⟩ : State String)).DefaultAsserter.testBit
        0 = (⟨3, fun _ => none⟩ : State String).DefaultAsserter.testBit 0 ∧
    tester 8 (PopTester 7 (PushTester (2 ^ 4) 7 (some "t7")
        (⟨3, fun _ => none⟩ : State String))) =
      tester 8 (PushTester (2 ^ 4) 7 (some "t7") (⟨3, fun _ => none⟩ : State String)) :=
  ⟨(push_pop_leaves_flag 4 7 (some "t7") ⟨3, fun _ => none⟩ ([] : List Unit)).2.1 0 (by decide),
    (push_pop_leaves_flag 4 7 (some "t7") ⟨3, fun _ => none⟩ ([] : List Unit)).2.2.2.1 8
      (by decide)⟩

end assert
